import Mathlib

/-!
Shallow embedding of the asset-tracking core of the `assets_discovery`
repository: the data model and operations of `internal/assets`
(`interface.go`-embedded asset code and the asset manager) and the two
OS-guess helpers of the packet parser.

Conventions of the embedding:
* Go `time.Time` values are abstract instants modelled as `Int`; every
  operation that calls `time.Now()` in Go receives the current instant
  `now` as an explicit argument.
* Go `float64` confidence scores are multiples of 0.1 in the source
  (0.3, 0.2, 0.1, clamp at 1.0), so they are modelled exactly as
  tenths, i.e. a `Nat` in `0..10` (0.5 is `5`).
* Go maps (`map[int]PortInfo`, `map[string]ServiceInfo`, …) are
  modelled as association lists with unique keys; `mapPut`/`mapFind`
  mirror Go map assignment and lookup, and iteration order is the
  insertion order (one admissible linearisation of Go's unspecified
  iteration order).
* Go `interface{}` values stored in change records are modelled by the
  tagged union `ChangeValue`; the dynamic values inside protocol bags
  are modelled by their string payloads, the only shape the asset code
  reads back.
-/

namespace Assets

/-- Association-list lookup keyed by `key`, mirroring a Go map read
`v, ok := m[k]`: returns the first entry whose key is `k`. -/
def mapFind {α : Type} {κ : Type} [DecidableEq κ] (key : α → κ) : List α → κ → Option α
  | [], _ => none
  | x :: xs, k => if key x = k then some x else mapFind key xs k

/-- Association-list insertion keyed by `key`, mirroring a Go map write
`m[key q] = q`: replaces the entry with the same key, else appends. -/
def mapPut {α : Type} {κ : Type} [DecidableEq κ] (key : α → κ) : List α → α → List α
  | [], q => [q]
  | x :: xs, q => if key x = key q then q :: xs else x :: mapPut key xs q

/-- OSInfo 操作系统信息 (`interface.go`). Confidence is in tenths. -/
structure OSInfo where
  Family : String
  Version : String
  Kernel : String
  Detection : List String
  Confidence : Nat
deriving Repr, DecidableEq

/-- PortInfo 端口信息 (`interface.go`). -/
structure PortInfo where
  Port : Int
  Protocol : String
  State : String
  Service : String
  Version : String
  Banner : String
  FirstSeen : Int
  LastSeen : Int
deriving Repr, DecidableEq

/-- ServiceInfo 服务信息 (`interface.go`); `Headers` entries are the
string payloads of the Go `map[string]interface{}`. -/
structure ServiceInfo where
  Name : String
  Version : String
  Port : Int
  Protocol : String
  Banner : String
  Headers : List (String × String)
  FirstSeen : Int
  LastSeen : Int
deriving Repr, DecidableEq

/-- Tagged union for the `interface{}`-typed old/new values stored in
change records by `Update` and `SetInactive`. -/
inductive ChangeValue where
  | str : String → ChangeValue
  | ports : List PortInfo → ChangeValue
  | os : OSInfo → ChangeValue
  | bool : Bool → ChangeValue
deriving Repr, DecidableEq

/-- ChangeRecord 变更记录 (`interface.go`). -/
structure ChangeRecord where
  Timestamp : Int
  ChangeType : String
  OldValue : ChangeValue
  NewValue : ChangeValue
  Description : String
deriving Repr, DecidableEq

/-- Protocol payload bag: protocol name mapped to string-valued entries
(the only entries the asset code inspects). -/
abbrev ProtocolMap := List (String × List (String × String))

/-- AssetInfo 资产信息结构 (`interface.go`): the per-frame observation.
`Services` models `map[string]interface{}`: a key with `some s` carries
a string payload, `none` a non-string payload. -/
structure AssetInfo where
  IPAddress : String
  MACAddress : String
  Hostname : String
  Vendor : String
  DeviceType : String
  OSGuess : String
  Timestamp : Int
  OpenPorts : List Int
  Services : List (String × Option String)
  Protocols : ProtocolMap
deriving Repr, DecidableEq

/-- Asset 完整的资产信息 (`interface.go`). Confidence is in tenths. -/
structure Asset where
  ID : String
  IPAddress : String
  MACAddress : String
  Hostname : String
  Vendor : String
  DeviceType : String
  OSInfo : OSInfo
  OpenPorts : List PortInfo
  Services : List ServiceInfo
  Protocols : ProtocolMap
  FirstSeen : Int
  LastSeen : Int
  LastUpdate : Int
  IsActive : Bool
  Confidence : Nat
  Changes : List ChangeRecord
deriving Repr, DecidableEq

/-- generateAssetID (`interface.go`): MAC first, then IP, then a
timestamped fallback label (Go formats `time.Now()`; here `toString`). -/
def generateAssetID (assetInfo : AssetInfo) (now : Int) : String :=
  if assetInfo.MACAddress ≠ "" then "mac_" ++ assetInfo.MACAddress
  else if assetInfo.IPAddress ≠ "" then "ip_" ++ assetInfo.IPAddress
  else "unknown_" ++ toString now

/-- classifyDeviceType (`interface.go`): vendor switch, then open-port
scan, then OS-guess switch. -/
def classifyDeviceType (assetInfo : AssetInfo) : String :=
  if assetInfo.Vendor == "VMware" || assetInfo.Vendor == "VirtualBox" ||
      assetInfo.Vendor == "QEMU/KVM" || assetInfo.Vendor == "Microsoft Hyper-V" ||
      assetInfo.Vendor == "Xen" then
    "虚拟机"
  else
    let hasWebPorts := assetInfo.OpenPorts.any fun port =>
      port == 80 || port == 443 || port == 8080 || port == 8443
    let hasServerPorts := assetInfo.OpenPorts.any fun port =>
      port == 22 || port == 23 || port == 3389 ||
      port == 21 || port == 25 || port == 53 || port == 110 || port == 143
    if hasWebPorts && hasServerPorts then "服务器"
    else if hasWebPorts then "Web设备"
    else if hasServerPorts then "服务器"
    else if assetInfo.OSGuess == "Linux/Unix" then "服务器"
    else if assetInfo.OSGuess == "Windows" then "工作站"
    else if assetInfo.OSGuess == "Cisco/Network Device" then "网络设备"
    else "未知设备"

/-- extractOSInfo (`interface.go`): family from the TTL-based OS guess,
detection methods from the guess and the http/dhcp protocol bags,
version from the DHCP vendor class. -/
def extractOSInfo (assetInfo : AssetInfo) : OSInfo :=
  let osInfo : OSInfo :=
    { Family := assetInfo.OSGuess, Version := "", Kernel := "",
      Detection := [], Confidence := 5 }
  let osInfo :=
    if assetInfo.OSGuess ≠ "" then
      { osInfo with Detection := osInfo.Detection ++ ["ttl_analysis"] }
    else osInfo
  let osInfo :=
    match mapFind Prod.fst assetInfo.Protocols "http" with
    | some bag =>
      match mapFind Prod.fst bag.2 "user-agent" with
      | some _ => { osInfo with Detection := osInfo.Detection ++ ["user_agent"] }
      | none => osInfo
    | none => osInfo
  match mapFind Prod.fst assetInfo.Protocols "dhcp" with
  | some bag =>
    match mapFind Prod.fst bag.2 "vendor_class" with
    | some kv =>
      { osInfo with Detection := osInfo.Detection ++ ["dhcp_vendor_class"],
                    Version := kv.2 }
    | none => osInfo
  | none => osInfo

/-- convertPorts (`interface.go`): each port number becomes a tcp/open
`PortInfo` with first-seen = last-seen = now. -/
def convertPorts (ports : List Int) (now : Int) : List PortInfo :=
  ports.map fun port =>
    { Port := port, Protocol := "tcp", State := "open", Service := "",
      Version := "", Banner := "", FirstSeen := now, LastSeen := now }

/-- convertServices (`interface.go`): each map entry becomes a
`ServiceInfo`; a string payload becomes the version. -/
def convertServices (services : List (String × Option String)) (now : Int) :
    List ServiceInfo :=
  services.map fun entry =>
    { Name := entry.1,
      Version := match entry.2 with | some s => s | none => "",
      Port := 0, Protocol := "", Banner := "", Headers := [],
      FirstSeen := now, LastSeen := now }

/-- calculateConfidence (`interface.go`), in tenths: 0.3 for MAC, 0.2
for IP, 0.2 for hostname, 0.1 each for ports, services, OS guess;
clamped at 1.0. -/
def calculateConfidence (assetInfo : AssetInfo) : Nat :=
  let confidence := 0
  let confidence := if assetInfo.MACAddress ≠ "" then confidence + 3 else confidence
  let confidence := if assetInfo.IPAddress ≠ "" then confidence + 2 else confidence
  let confidence := if assetInfo.Hostname ≠ "" then confidence + 2 else confidence
  let confidence := if assetInfo.OpenPorts.length > 0 then confidence + 1 else confidence
  let confidence := if assetInfo.Services.length > 0 then confidence + 1 else confidence
  let confidence := if assetInfo.OSGuess ≠ "" then confidence + 1 else confidence
  if confidence > 10 then 10 else confidence

/-- equalPorts (`interface.go`): length equality and every port number
of `b` present among the port numbers of `a`. -/
def equalPorts (a b : List PortInfo) : Bool :=
  if a.length ≠ b.length then false
  else b.all fun port => a.any fun q => q.Port == port.Port

/-- mergePorts (`interface.go`): load existing entries into a map keyed
by port number, then for each new entry either refresh last-seen of the
existing entry or insert it; read the map back out. -/
def mergePorts (existing newPorts : List PortInfo) : List PortInfo :=
  let portMap := existing.foldl (fun m port => mapPut PortInfo.Port m port) []
  newPorts.foldl
    (fun m port =>
      match mapFind PortInfo.Port m port.Port with
      | some existingPort =>
        mapPut PortInfo.Port m { existingPort with LastSeen := port.LastSeen }
      | none => mapPut PortInfo.Port m port)
    portMap

/-- mergeServices (`interface.go`): union keyed by service name; on
collision refresh last-seen and take the new version when non-empty. -/
def mergeServices (existing newServices : List ServiceInfo) : List ServiceInfo :=
  let serviceMap := existing.foldl (fun m service => mapPut ServiceInfo.Name m service) []
  newServices.foldl
    (fun m service =>
      match mapFind ServiceInfo.Name m service.Name with
      | some existingService =>
        mapPut ServiceInfo.Name m
          { existingService with
              LastSeen := service.LastSeen,
              Version := if service.Version ≠ "" then service.Version
                         else existingService.Version }
      | none => mapPut ServiceInfo.Name m service)
    serviceMap

/-- mergeProtocols (`interface.go`): key-wise upsert, newest wins. -/
def mergeProtocols (existing newProtocols : ProtocolMap) : ProtocolMap :=
  newProtocols.foldl (fun m kv => mapPut Prod.fst m kv) existing

/-- mergeOSInfo (`interface.go`): field-wise prefer non-empty new
values, union detection methods, keep the larger confidence. -/
def mergeOSInfo (existing newOS : OSInfo) : OSInfo :=
  let existing := if newOS.Family ≠ "" then { existing with Family := newOS.Family } else existing
  let existing := if newOS.Version ≠ "" then { existing with Version := newOS.Version } else existing
  let existing := if newOS.Kernel ≠ "" then { existing with Kernel := newOS.Kernel } else existing
  let detection :=
    (existing.Detection ++ newOS.Detection).foldl
      (fun acc method => if acc.contains method then acc else acc ++ [method]) []
  let existing := { existing with Detection := detection }
  if newOS.Confidence > existing.Confidence then
    { existing with Confidence := newOS.Confidence }
  else existing

/-- NewAsset (`interface.go`): build a fresh record from an observation
at instant `now`. -/
def NewAsset (assetInfo : AssetInfo) (now : Int) : Asset :=
  { ID := generateAssetID assetInfo now,
    IPAddress := assetInfo.IPAddress,
    MACAddress := assetInfo.MACAddress,
    Hostname := assetInfo.Hostname,
    Vendor := assetInfo.Vendor,
    DeviceType := classifyDeviceType assetInfo,
    OSInfo := extractOSInfo assetInfo,
    OpenPorts := convertPorts assetInfo.OpenPorts now,
    Services := convertServices assetInfo.Services now,
    Protocols := assetInfo.Protocols,
    FirstSeen := now, LastSeen := now, LastUpdate := now,
    IsActive := true,
    Confidence := calculateConfidence assetInfo,
    Changes := [] }

/-- State threaded through the blocks of `Update`: the asset being
mutated and the change records collected so far. -/
abbrev UpdState := Asset × List ChangeRecord

/-- The IP-address block of `Update` (`interface.go`). -/
def updIP (assetInfo : AssetInfo) (now : Int) (s : UpdState) : UpdState :=
  if assetInfo.IPAddress ≠ "" ∧ assetInfo.IPAddress ≠ s.1.IPAddress then
    ({ s.1 with IPAddress := assetInfo.IPAddress },
      s.2 ++ [{ Timestamp := now, ChangeType := "ip_change",
                OldValue := ChangeValue.str s.1.IPAddress,
                NewValue := ChangeValue.str assetInfo.IPAddress,
                Description := "IP地址发生变更" }])
  else s

/-- The hostname block of `Update` (`interface.go`). -/
def updHostname (assetInfo : AssetInfo) (now : Int) (s : UpdState) : UpdState :=
  if assetInfo.Hostname ≠ "" ∧ assetInfo.Hostname ≠ s.1.Hostname then
    ({ s.1 with Hostname := assetInfo.Hostname },
      s.2 ++ [{ Timestamp := now, ChangeType := "hostname_change",
                OldValue := ChangeValue.str s.1.Hostname,
                NewValue := ChangeValue.str assetInfo.Hostname,
                Description := "主机名发生变更" }])
  else s

/-- The open-ports block of `Update` (`interface.go`). -/
def updPorts (assetInfo : AssetInfo) (now : Int) (s : UpdState) : UpdState :=
  if assetInfo.OpenPorts.length > 0 then
    let newPorts := convertPorts assetInfo.OpenPorts now
    if equalPorts s.1.OpenPorts newPorts then s
    else
      ({ s.1 with OpenPorts := mergePorts s.1.OpenPorts newPorts },
        s.2 ++ [{ Timestamp := now, ChangeType := "ports_change",
                  OldValue := ChangeValue.ports s.1.OpenPorts,
                  NewValue := ChangeValue.ports newPorts,
                  Description := "开放端口发生变更" }])
  else s

/-- The services block of `Update` (`interface.go`); journals nothing. -/
def updServices (assetInfo : AssetInfo) (now : Int) (s : UpdState) : UpdState :=
  if assetInfo.Services.length > 0 then
    ({ s.1 with Services := mergeServices s.1.Services (convertServices assetInfo.Services now) }, s.2)
  else s

/-- The protocols block of `Update` (`interface.go`); journals nothing. -/
def updProtocols (assetInfo : AssetInfo) (s : UpdState) : UpdState :=
  if assetInfo.Protocols.length > 0 then
    ({ s.1 with Protocols := mergeProtocols s.1.Protocols assetInfo.Protocols }, s.2)
  else s

/-- The OS-info block of `Update` (`interface.go`). -/
def updOS (assetInfo : AssetInfo) (now : Int) (s : UpdState) : UpdState :=
  if assetInfo.OSGuess ≠ "" then
    let newOSInfo := extractOSInfo assetInfo
    if newOSInfo.Family ≠ "" ∧ newOSInfo.Family ≠ s.1.OSInfo.Family then
      ({ s.1 with OSInfo := mergeOSInfo s.1.OSInfo newOSInfo },
        s.2 ++ [{ Timestamp := now, ChangeType := "os_change",
                  OldValue := ChangeValue.os s.1.OSInfo,
                  NewValue := ChangeValue.os newOSInfo,
                  Description := "操作系统信息发生变更" }])
    else s
  else s

/-- The device-type block of `Update` (`interface.go`); the new type is
recomputed from the incoming observation. -/
def updDeviceType (assetInfo : AssetInfo) (now : Int) (s : UpdState) : UpdState :=
  let newDeviceType := classifyDeviceType assetInfo
  if newDeviceType ≠ "" ∧ newDeviceType ≠ s.1.DeviceType then
    ({ s.1 with DeviceType := newDeviceType },
      s.2 ++ [{ Timestamp := now, ChangeType := "device_type_change",
                OldValue := ChangeValue.str s.1.DeviceType,
                NewValue := ChangeValue.str newDeviceType,
                Description := "设备类型发生变更" }])
  else s

/-- Update (`interface.go`): merge an observation into an asset at
instant `now`; run the blocks in source order, append the collected
change records, touch the timestamps and the active flag, and recompute
the confidence from the observation. -/
def Update (a : Asset) (assetInfo : AssetInfo) (now : Int) : Asset :=
  let s := updIP assetInfo now (a, [])
  let s := updHostname assetInfo now s
  let s := updPorts assetInfo now s
  let s := updServices assetInfo now s
  let s := updProtocols assetInfo s
  let s := updOS assetInfo now s
  let s := updDeviceType assetInfo now s
  { s.1 with
      Changes := s.1.Changes ++ s.2,
      LastSeen := now, LastUpdate := now, IsActive := true,
      Confidence := calculateConfidence assetInfo }

/-- The status-change record appended by `SetInactive`. -/
def statusChangeRecord (now : Int) : ChangeRecord :=
  { Timestamp := now, ChangeType := "status_change",
    OldValue := ChangeValue.bool true, NewValue := ChangeValue.bool false,
    Description := "资产变为非活跃状态" }

/-- SetInactive (`interface.go`): when active, clear the flag, touch
last-update and journal a status change; otherwise do nothing. -/
def SetInactive (a : Asset) (now : Int) : Asset :=
  if a.IsActive then
    { a with IsActive := false, LastUpdate := now,
             Changes := a.Changes ++ [statusChangeRecord now] }
  else a

/-- AssetStats 资产统计信息 (`manager.go`). -/
structure AssetStats where
  TotalAssets : Nat
  ActiveAssets : Nat
  NewAssets : Nat
  LastUpdate : Int
  DeviceTypes : List (String × Nat)
  OSDistribution : List (String × Nat)
deriving Repr, DecidableEq

/-- The in-memory state of the asset manager: the asset table keyed by
asset ID, plus the running statistics. -/
structure ManagerState where
  assets : List (String × Asset)
  stats : AssetStats
deriving Repr, DecidableEq

/-- UpdateAsset (`manager.go`): a nil observation is dropped; otherwise
route by `generateAssetID` and either merge into the existing record or
create a new one (bumping the new-assets counter). -/
def UpdateAsset (s : ManagerState) (assetInfo : Option AssetInfo) (now : Int) :
    ManagerState :=
  match assetInfo with
  | none => s
  | some info =>
    let assetID := generateAssetID info now
    match mapFind Prod.fst s.assets assetID with
    | some existingEntry =>
      { s with assets := mapPut Prod.fst s.assets (assetID, Update existingEntry.2 info now) }
    | none =>
      { s with
          assets := mapPut Prod.fst s.assets (assetID, NewAsset info now),
          stats := { s.stats with NewAssets := s.stats.NewAssets + 1 } }

/-- cleanupInactiveAssets (`manager.go`): flip every active asset whose
last-seen is strictly before `now - timeout` to inactive; `timeout` is
the asset timeout converted to the model's time unit. -/
def cleanupInactiveAssets (s : ManagerState) (now timeout : Int) : ManagerState :=
  let cutoff := now - timeout
  { s with
      assets := s.assets.map fun e =>
        if e.2.IsActive ∧ e.2.LastSeen < cutoff then (e.1, SetInactive e.2 now) else e }

/-- Histogram bump used by `updateStats` (`manager.go`). -/
def bumpCount (m : List (String × Nat)) (k : String) : List (String × Nat) :=
  match mapFind Prod.fst m k with
  | some kv => mapPut Prod.fst m (k, kv.2 + 1)
  | none => mapPut Prod.fst m (k, 1)

/-- updateStats (`manager.go`): rebuild the aggregate view from the
asset table; the table itself is read-only here. -/
def updateStats (s : ManagerState) (now : Int) : ManagerState :=
  { s with
      stats :=
        { TotalAssets := s.assets.length,
          ActiveAssets := (s.assets.filter fun e => e.2.IsActive).length,
          NewAssets := s.stats.NewAssets,
          LastUpdate := now,
          DeviceTypes :=
            s.assets.foldl
              (fun m e => if e.2.DeviceType ≠ "" then bumpCount m e.2.DeviceType else m) [],
          OSDistribution :=
            s.assets.foldl
              (fun m e => if e.2.OSInfo.Family ≠ "" then bumpCount m e.2.OSInfo.Family else m) [] } }

/-- One manager-level operation: a merge (possibly of a nil
observation), an expiry pass, or a statistics pass. -/
inductive Op where
  | update : Option AssetInfo → Int → Op
  | cleanup : Int → Int → Op
  | stats : Int → Op
deriving Repr

/-- Apply one manager-level operation. -/
def applyOp (s : ManagerState) : Op → ManagerState
  | Op.update info now => UpdateAsset s info now
  | Op.cleanup now timeout => cleanupInactiveAssets s now timeout
  | Op.stats now => updateStats s now

/-- Apply a sequence of manager-level operations. -/
def applyOps (s : ManagerState) (ops : List Op) : ManagerState :=
  ops.foldl applyOp s

/-- One asset-level operation, for properties about a single record. -/
inductive AssetOp where
  | update : AssetInfo → Int → AssetOp
  | setInactive : Int → AssetOp
deriving Repr

/-- Apply one asset-level operation. -/
def applyAssetOp (a : Asset) : AssetOp → Asset
  | AssetOp.update info now => Update a info now
  | AssetOp.setInactive now => SetInactive a now

/-- Apply a sequence of asset-level operations. -/
def applyAssetOps (a : Asset) (ops : List AssetOp) : Asset :=
  ops.foldl applyAssetOp a

/-- Character-list prefix test, used to model Go `strings.Contains`. -/
def listStartsWith : List Char → List Char → Bool
  | _, [] => true
  | [], _ :: _ => false
  | c :: cs, d :: ds => c == d && listStartsWith cs ds

/-- Character-list substring test (Go `strings.Contains` on rune
lists): the second list occurs contiguously in the first. -/
def listHasSub : List Char → List Char → Bool
  | [], sub => sub.isEmpty
  | c :: cs, sub => listStartsWith (c :: cs) sub || listHasSub cs sub

/-- Go `strings.Contains s sub`. -/
def strContains (s sub : String) : Bool :=
  listHasSub s.toList sub.toList

/-- ASCII lower-casing of one character (the case relevant to the
matched tokens), modelling Go `strings.ToLower`. -/
def toLowerChar (c : Char) : Char :=
  if 65 ≤ c.toNat ∧ c.toNat ≤ 90 then Char.ofNat (c.toNat + 32) else c

/-- Go `strings.ToLower` on the User-Agent string. -/
def strToLower (s : String) : String :=
  String.mk (s.toList.map toLowerChar)

/-- guessOSFromTTL (`parser.go`): TTL bands. The argument is a `uint8`
in Go; the final branch mirrors the unreachable `default`. -/
def guessOSFromTTL (ttl : Nat) : String :=
  if ttl ≤ 64 then "Linux/Unix"
  else if ttl ≤ 128 then "Windows"
  else if ttl ≤ 255 then "Cisco/Network Device"
  else ""

/-- guessOSFromUserAgent (`parser.go`): lower-case the User-Agent and
test substrings in source order. -/
def guessOSFromUserAgent (userAgent : String) : String :=
  let ua := strToLower userAgent
  if strContains ua "windows" then "Windows"
  else if strContains ua "mac os x" || strContains ua "macos" then "macOS"
  else if strContains ua "linux" then "Linux"
  else if strContains ua "android" then "Android"
  else if strContains ua "iphone" || strContains ua "ipad" then "iOS"
  else ""

/-! ### Association-map lemmas -/

section MapLemmas

variable {α : Type} {κ : Type} [DecidableEq κ] (key : α → κ)

theorem mapFind_key {m : List α} {k : κ} {x : α} (h : mapFind key m k = some x) :
    key x = k := by
  induction m with
  | nil => simp [mapFind] at h
  | cons y ys ih =>
    simp only [mapFind] at h
    split at h
    · cases h; assumption
    · exact ih h

theorem mapFind_mem {m : List α} {k : κ} {x : α} (h : mapFind key m k = some x) :
    x ∈ m := by
  induction m with
  | nil => simp [mapFind] at h
  | cons y ys ih =>
    simp only [mapFind] at h
    split at h
    · cases h; exact List.mem_cons_self _ _
    · exact List.mem_cons_of_mem _ (ih h)

theorem mapFind_put (m : List α) (q : α) (k : κ) :
    mapFind key (mapPut key m q) k = if key q = k then some q else mapFind key m k := by
  induction m with
  | nil => simp [mapFind, mapPut]
  | cons y ys ih =>
    by_cases hy : key y = key q
    · by_cases hk : key q = k
      · simp [mapPut, hy, mapFind, hk, hy.trans hk]
      · have hyk : ¬ key y = k := fun h => hk (hy.symm.trans h)
        simp [mapPut, hy, mapFind, hk, hyk]
    · by_cases hk : key y = k
      · have hqk : ¬ key q = k := fun h => hy (hk.trans h.symm)
        have hkq : ¬ k = key q := fun h => hqk h.symm
        simp [mapPut, hy, mapFind, hk, hqk, hkq]
      · simp [mapPut, hy, mapFind, hk, ih]

theorem mapFind_append (l₁ l₂ : List α) (k : κ) :
    mapFind key (l₁ ++ l₂) k =
      match mapFind key l₁ k with
      | some x => some x
      | none => mapFind key l₂ k := by
  induction l₁ with
  | nil => simp [mapFind]
  | cons y ys ih =>
    simp only [List.cons_append, mapFind]
    split
    · rfl
    · exact ih

theorem mapFind_eq_none_iff (m : List α) (k : κ) :
    mapFind key m k = none ↔ ∀ x ∈ m, key x ≠ k := by
  induction m with
  | nil => simp [mapFind]
  | cons y ys ih =>
    simp only [mapFind, List.mem_cons]
    constructor
    · intro h
      split at h
      · cases h
      · intro x hx
        rcases hx with rfl | hx
        · next hne => exact hne
        · exact (ih.mp h) x hx
    · intro h
      rw [if_neg (h y (Or.inl rfl))]
      exact ih.mpr fun x hx => h x (Or.inr hx)

theorem mapFind_isSome_of_mem {m : List α} {x : α} (h : x ∈ m) :
    (mapFind key m (key x)).isSome := by
  cases hf : mapFind key m (key x) with
  | some _ => rfl
  | none => exact absurd rfl ((mapFind_eq_none_iff key m (key x)).mp hf x h)

theorem mapFind_of_mem_nodup {m : List α} {x : α}
    (hnd : (m.map key).Nodup) (h : x ∈ m) :
    mapFind key m (key x) = some x := by
  induction m with
  | nil => cases h
  | cons y ys ih =>
    simp only [List.map_cons, List.nodup_cons] at hnd
    rcases List.mem_cons.mp h with rfl | h
    · simp [mapFind]
    · have hne : key y ≠ key x := by
        intro he
        exact hnd.1 (he ▸ List.mem_map_of_mem key h)
      simp only [mapFind, if_neg hne]
      exact ih hnd.2 h

theorem length_mapPut (m : List α) (q : α) :
    (mapPut key m q).length =
      if (mapFind key m (key q)).isSome then m.length else m.length + 1 := by
  induction m with
  | nil => simp [mapPut, mapFind]
  | cons y ys ih =>
    simp only [mapPut, mapFind]
    by_cases hy : key y = key q
    · simp [hy]
    · simp only [if_neg hy, List.length_cons, ih]
      split <;> rfl

theorem length_le_mapPut (m : List α) (q : α) :
    m.length ≤ (mapPut key m q).length := by
  rw [length_mapPut]
  split <;> omega

theorem mapPut_of_find_none {m : List α} {q : α}
    (h : mapFind key m (key q) = none) :
    mapPut key m q = m ++ [q] := by
  induction m with
  | nil => simp [mapPut]
  | cons y ys ih =>
    simp only [mapFind] at h
    split at h
    · cases h
    · next hy => simp only [mapPut, if_neg hy, List.cons_append, ih h]

theorem mapKeys_mapPut (m : List α) (q : α) :
    (mapPut key m q).map key =
      if (mapFind key m (key q)).isSome then m.map key else m.map key ++ [key q] := by
  induction m with
  | nil => simp [mapPut, mapFind]
  | cons y ys ih =>
    simp only [mapPut, mapFind]
    by_cases hy : key y = key q
    · simp [hy]
    · simp only [if_neg hy, List.map_cons, ih]
      split <;> simp

theorem nodup_mapKeys_mapPut {m : List α} (q : α)
    (hnd : (m.map key).Nodup) : ((mapPut key m q).map key).Nodup := by
  rw [mapKeys_mapPut]
  split
  · exact hnd
  · next h =>
    have hk : key q ∉ m.map key := by
      intro hmem
      rcases List.mem_map.mp hmem with ⟨x, hx, hkey⟩
      have := mapFind_isSome_of_mem key hx
      rw [hkey] at this
      simp [this] at h
    simp [List.nodup_append, hnd, hk]

theorem foldl_mapPut_eq_append {l acc : List α}
    (hnd : (((acc ++ l).map key)).Nodup) :
    l.foldl (mapPut key) acc = acc ++ l := by
  induction l generalizing acc with
  | nil => simp
  | cons x xs ih =>
    have hx : mapFind key acc (key x) = none := by
      rw [mapFind_eq_none_iff]
      intro y hy he
      rw [List.map_append] at hnd
      have hdisj := List.disjoint_of_nodup_append hnd
      exact hdisj (List.mem_map_of_mem key hy) (by simp [he])
    have hnd' : (((acc ++ [x]) ++ xs).map key).Nodup := by
      simpa using hnd
    rw [List.foldl_cons, mapPut_of_find_none key hx, ih hnd']
    simp

end MapLemmas

/-! ### Lemmas about the merge step shared by `mergePorts` and `mergeServices` -/

section StepLemmas

variable {α : Type} {κ : Type} [DecidableEq κ] (key : α → κ) (mod : α → α → α)

/-- The per-entry body of the second phase of `mergePorts` and
`mergeServices`: on a key hit, store the modified existing entry,
otherwise store the new entry. -/
def mapStep (m : List α) (q : α) : List α :=
  match mapFind key m (key q) with
  | some ex => mapPut key m (mod ex q)
  | none => mapPut key m q

/-- The entry a merge step stores for a hit key: the modified existing
entry when present, else the incoming one. -/
def hitValue (mod : α → α → α) (mOld : Option α) (q : α) : α :=
  match mOld with
  | some ex => mod ex q
  | none => q

/-- Per-key result of a whole phase-2 fold: untouched when the key is
absent from the new list, otherwise the hit value. -/
def stepValue (mod : α → α → α) (mOld mNew : Option α) : Option α :=
  match mNew with
  | some q => some (hitValue mod mOld q)
  | none => mOld

theorem mapFind_mapStep (hmod : ∀ ex q : α, key (mod ex q) = key ex)
    (m : List α) (q : α) (k : κ) :
    mapFind key (mapStep key mod m q) k =
      if key q = k then some (hitValue mod (mapFind key m (key q)) q)
      else mapFind key m k := by
  unfold mapStep
  cases hf : mapFind key m (key q) with
  | some ex =>
    have hkey : key ex = key q := mapFind_key key hf
    rw [mapFind_put, hmod, hkey]
    simp [hitValue]
  | none =>
    rw [mapFind_put]
    simp [hitValue]

theorem length_le_mapStep (m : List α) (q : α) :
    m.length ≤ (mapStep key mod m q).length := by
  unfold mapStep
  cases mapFind key m (key q) <;> exact length_le_mapPut key m _

theorem nodup_mapStep {m : List α} (q : α) (hnd : (m.map key).Nodup) :
    ((mapStep key mod m q).map key).Nodup := by
  unfold mapStep
  cases mapFind key m (key q) <;> exact nodup_mapKeys_mapPut key _ hnd

theorem length_le_foldl_mapStep (l : List α) (m : List α) :
    m.length ≤ (l.foldl (mapStep key mod) m).length := by
  induction l generalizing m with
  | nil => exact Nat.le_refl _
  | cons q rest ih =>
    exact Nat.le_trans (length_le_mapStep key mod m q) (ih (mapStep key mod m q))

theorem nodup_foldl_mapStep (l : List α) {m : List α} (hnd : (m.map key).Nodup) :
    (((l.foldl (mapStep key mod) m)).map key).Nodup := by
  induction l generalizing m with
  | nil => exact hnd
  | cons q rest ih => exact ih (nodup_mapStep key mod q hnd)

theorem isSome_mapFind_foldl_mapStep (hmod : ∀ ex q : α, key (mod ex q) = key ex)
    (l : List α) (m : List α) (k : κ)
    (h : (mapFind key m k).isSome) :
    (mapFind key (l.foldl (mapStep key mod) m) k).isSome := by
  induction l generalizing m with
  | nil => exact h
  | cons q rest ih =>
    refine ih (mapStep key mod m q) ?_
    rw [mapFind_mapStep key mod hmod]
    split
    · rfl
    · exact h

theorem mapFind_foldl_mapStep (hmod : ∀ ex q : α, key (mod ex q) = key ex)
    {l : List α} (hnd : (l.map key).Nodup)
    (m : List α) (k : κ) :
    mapFind key (l.foldl (mapStep key mod) m) k =
      stepValue mod (mapFind key m k) (mapFind key l k) := by
  induction l generalizing m with
  | nil => simp [mapFind, stepValue]
  | cons q rest ih =>
    simp only [List.map_cons, List.nodup_cons] at hnd
    rw [List.foldl_cons]
    by_cases hk : key q = k
    · have hrest : mapFind key rest k = none := by
        rw [mapFind_eq_none_iff]
        intro x hx he
        exact hnd.1 (hk ▸ he ▸ List.mem_map_of_mem key hx)
      rw [ih hnd.2, hrest]
      rw [mapFind_mapStep key mod hmod, if_pos hk, hk]
      simp only [mapFind, if_pos hk]
      simp [stepValue]
    · have hq : mapFind key (q :: rest) k = mapFind key rest k := by
        simp [mapFind, hk]
      rw [ih hnd.2, hq]
      rw [mapFind_mapStep key mod hmod, if_neg hk]

end StepLemmas

/-! ### The merge functions as phase-1 (map load) plus phase-2 (`mapStep` fold) -/

/-- The modifier applied by `mergePorts` on a port-number hit. -/
def portMod (existingPort port : PortInfo) : PortInfo :=
  { existingPort with LastSeen := port.LastSeen }

/-- The modifier applied by `mergeServices` on a name hit. -/
def serviceMod (existingService service : ServiceInfo) : ServiceInfo :=
  { existingService with
      LastSeen := service.LastSeen,
      Version := if service.Version ≠ "" then service.Version
                 else existingService.Version }

theorem portMod_key (ex q : PortInfo) : (portMod ex q).Port = ex.Port := rfl

theorem serviceMod_key (ex q : ServiceInfo) : (serviceMod ex q).Name = ex.Name := rfl

theorem mergePorts_eq (existing newPorts : List PortInfo) :
    mergePorts existing newPorts =
      newPorts.foldl (mapStep PortInfo.Port portMod)
        (existing.foldl (mapPut PortInfo.Port) []) := by
  have hstep :
      (fun (m : List PortInfo) (port : PortInfo) =>
        match mapFind PortInfo.Port m port.Port with
        | some existingPort =>
          mapPut PortInfo.Port m { existingPort with LastSeen := port.LastSeen }
        | none => mapPut PortInfo.Port m port) = mapStep PortInfo.Port portMod := by
    funext m port
    unfold mapStep portMod
    cases hf : mapFind PortInfo.Port m port.Port <;> simp [hf]
  unfold mergePorts
  dsimp only
  rw [hstep]

theorem mergeServices_eq (existing newServices : List ServiceInfo) :
    mergeServices existing newServices =
      newServices.foldl (mapStep ServiceInfo.Name serviceMod)
        (existing.foldl (mapPut ServiceInfo.Name) []) := by
  have hstep :
      (fun (m : List ServiceInfo) (service : ServiceInfo) =>
        match mapFind ServiceInfo.Name m service.Name with
        | some existingService =>
          mapPut ServiceInfo.Name m
            { existingService with
                LastSeen := service.LastSeen,
                Version := if service.Version ≠ "" then service.Version
                           else existingService.Version }
        | none => mapPut ServiceInfo.Name m service) =
          mapStep ServiceInfo.Name serviceMod := by
    funext m service
    unfold mapStep serviceMod
    cases hf : mapFind ServiceInfo.Name m service.Name <;> simp [hf]
  unfold mergeServices
  dsimp only
  rw [hstep]

theorem mergePorts_phase1 {existing : List PortInfo}
    (hnd : (existing.map PortInfo.Port).Nodup) (newPorts : List PortInfo) :
    mergePorts existing newPorts =
      newPorts.foldl (mapStep PortInfo.Port portMod) existing := by
  rw [mergePorts_eq,
    @foldl_mapPut_eq_append PortInfo Int _ PortInfo.Port existing [] (by simpa using hnd)]
  simp

theorem mergeServices_phase1 {existing : List ServiceInfo}
    (hnd : (existing.map ServiceInfo.Name).Nodup) (newServices : List ServiceInfo) :
    mergeServices existing newServices =
      newServices.foldl (mapStep ServiceInfo.Name serviceMod) existing := by
  rw [mergeServices_eq,
    @foldl_mapPut_eq_append ServiceInfo String _ ServiceInfo.Name existing [] (by simpa using hnd)]
  simp

/-! ### Frame lemmas for the blocks of `Update` -/

/-- Number of journal entries of a given change type. -/
def countChanges (t : String) (l : List ChangeRecord) : Nat :=
  (l.filter fun c => c.ChangeType == t).length

theorem countChanges_append (t : String) (l₁ l₂ : List ChangeRecord) :
    countChanges t (l₁ ++ l₂) = countChanges t l₁ + countChanges t l₂ := by
  simp [countChanges, List.filter_append]

theorem countChanges_of_ne {t ty : String} {δ : List ChangeRecord}
    (h : ∀ c ∈ δ, c.ChangeType = ty) (hne : ty ≠ t) : countChanges t δ = 0 := by
  simp only [countChanges, List.length_eq_zero, List.filter_eq_nil_iff]
  intro c hc
  simp [h c hc, hne]

theorem updIP_frame (i : AssetInfo) (n : Int) (s : UpdState) :
    ∃ ip δ, updIP i n s = ({ s.1 with IPAddress := ip }, s.2 ++ δ) ∧
      ∀ c ∈ δ, c.ChangeType = "ip_change" := by
  unfold updIP
  split
  · exact ⟨i.IPAddress, _, rfl, by simp⟩
  · exact ⟨s.1.IPAddress, [], by simp, by simp⟩

theorem updHostname_frame (i : AssetInfo) (n : Int) (s : UpdState) :
    ∃ h δ, updHostname i n s = ({ s.1 with Hostname := h }, s.2 ++ δ) ∧
      ∀ c ∈ δ, c.ChangeType = "hostname_change" := by
  unfold updHostname
  split
  · exact ⟨i.Hostname, _, rfl, by simp⟩
  · exact ⟨s.1.Hostname, [], by simp, by simp⟩

theorem updPorts_frame (i : AssetInfo) (n : Int) (s : UpdState) :
    ∃ ps δ, updPorts i n s = ({ s.1 with OpenPorts := ps }, s.2 ++ δ) ∧
      ∀ c ∈ δ, c.ChangeType = "ports_change" := by
  unfold updPorts
  split
  · dsimp only
    split
    · exact ⟨s.1.OpenPorts, [], by simp, by simp⟩
    · exact ⟨_, _, rfl, by simp⟩
  · exact ⟨s.1.OpenPorts, [], by simp, by simp⟩

theorem updServices_frame (i : AssetInfo) (n : Int) (s : UpdState) :
    ∃ sv, updServices i n s = ({ s.1 with Services := sv }, s.2) := by
  unfold updServices
  split
  · exact ⟨_, rfl⟩
  · exact ⟨s.1.Services, by simp⟩

theorem updProtocols_frame (i : AssetInfo) (s : UpdState) :
    ∃ pm, updProtocols i s = ({ s.1 with Protocols := pm }, s.2) := by
  unfold updProtocols
  split
  · exact ⟨_, rfl⟩
  · exact ⟨s.1.Protocols, by simp⟩

theorem updOS_frame (i : AssetInfo) (n : Int) (s : UpdState) :
    ∃ os δ, updOS i n s = ({ s.1 with OSInfo := os }, s.2 ++ δ) ∧
      ∀ c ∈ δ, c.ChangeType = "os_change" := by
  unfold updOS
  split
  · dsimp only
    split
    · exact ⟨_, _, rfl, by simp⟩
    · exact ⟨s.1.OSInfo, [], by simp, by simp⟩
  · exact ⟨s.1.OSInfo, [], by simp, by simp⟩

theorem updDeviceType_frame (i : AssetInfo) (n : Int) (s : UpdState) :
    ∃ dt δ, updDeviceType i n s = ({ s.1 with DeviceType := dt }, s.2 ++ δ) ∧
      ∀ c ∈ δ, c.ChangeType = "device_type_change" := by
  unfold updDeviceType
  dsimp only
  split
  · exact ⟨_, _, rfl, by simp⟩
  · exact ⟨s.1.DeviceType, [], by simp, by simp⟩

/-- Decomposition of `Update`: it only rewrites the seven mutable
attribute fields, appends to the journal, touches the timestamps and
the active flag, and recomputes the confidence from the observation. -/
theorem Update_decomp (a : Asset) (i : AssetInfo) (n : Int) :
    ∃ ip host ps sv pm os dt δ,
      Update a i n =
        { a with IPAddress := ip, Hostname := host, OpenPorts := ps,
                 Services := sv, Protocols := pm, OSInfo := os, DeviceType := dt,
                 Changes := a.Changes ++ δ, LastSeen := n, LastUpdate := n,
                 IsActive := true, Confidence := calculateConfidence i } := by
  unfold Update
  dsimp only
  obtain ⟨ip, δ1, h1, -⟩ := updIP_frame i n (a, [])
  rw [h1]
  obtain ⟨host, δ2, h2, -⟩ := updHostname_frame i n _
  rw [h2]
  obtain ⟨ps, δ3, h3, -⟩ := updPorts_frame i n _
  rw [h3]
  obtain ⟨sv, h4⟩ := updServices_frame i n _
  rw [h4]
  obtain ⟨pm, h5⟩ := updProtocols_frame i _
  rw [h5]
  obtain ⟨os, δ6, h6, -⟩ := updOS_frame i n _
  rw [h6]
  obtain ⟨dt, δ7, h7, -⟩ := updDeviceType_frame i n _
  rw [h7]
  exact ⟨ip, host, ps, sv, pm, os, dt, ((([] ++ δ1) ++ δ2) ++ δ3) ++ δ6 ++ δ7, rfl⟩

theorem Update_ID (a : Asset) (i : AssetInfo) (n : Int) :
    (Update a i n).ID = a.ID := by
  obtain ⟨ip, host, ps, sv, pm, os, dt, δ, h⟩ := Update_decomp a i n
  rw [h]

theorem Update_Changes_append (a : Asset) (i : AssetInfo) (n : Int) :
    ∃ δ, (Update a i n).Changes = a.Changes ++ δ := by
  obtain ⟨ip, host, ps, sv, pm, os, dt, δ, h⟩ := Update_decomp a i n
  exact ⟨δ, by rw [h]⟩

theorem SetInactive_ID (a : Asset) (n : Int) : (SetInactive a n).ID = a.ID := by
  unfold SetInactive
  split <;> rfl

theorem SetInactive_Changes_append (a : Asset) (n : Int) :
    ∃ δ, (SetInactive a n).Changes = a.Changes ++ δ := by
  unfold SetInactive
  split
  · exact ⟨[statusChangeRecord n], rfl⟩
  · exact ⟨[], by simp⟩

theorem Update_LastSeen (a : Asset) (i : AssetInfo) (n : Int) :
    (Update a i n).LastSeen = n := by
  obtain ⟨ip, host, ps, sv, pm, os, dt, δ, h⟩ := Update_decomp a i n
  rw [h]

theorem Update_Confidence (a : Asset) (i : AssetInfo) (n : Int) :
    (Update a i n).Confidence = calculateConfidence i := by
  obtain ⟨ip, host, ps, sv, pm, os, dt, δ, h⟩ := Update_decomp a i n
  rw [h]

/-! ### Identity lemmas for `Update` blocks when the observation brings
nothing new (used for the duplicate-observation property) -/

theorem updIP_of_eq {i : AssetInfo} {s : UpdState} (n : Int)
    (h : s.1.IPAddress = i.IPAddress) : updIP i n s = s := by
  unfold updIP
  rw [if_neg fun hc => hc.2 h.symm]

theorem updHostname_of_eq {i : AssetInfo} {s : UpdState} (n : Int)
    (h : s.1.Hostname = i.Hostname) : updHostname i n s = s := by
  unfold updHostname
  rw [if_neg fun hc => hc.2 h.symm]

theorem equalPorts_refl_nums (l : List Int) (t1 t2 : Int) :
    equalPorts (convertPorts l t1) (convertPorts l t2) = true := by
  unfold equalPorts
  rw [if_neg (by simp [convertPorts])]
  rw [List.all_eq_true]
  intro p hp
  rw [List.any_eq_true]
  rcases List.mem_map.mp hp with ⟨x, hx, rfl⟩
  refine ⟨_, List.mem_map_of_mem _ hx, ?_⟩
  simp

theorem updPorts_of_self {i : AssetInfo} {s : UpdState} (n t : Int)
    (h : s.1.OpenPorts = convertPorts i.OpenPorts t) : updPorts i n s = s := by
  unfold updPorts
  split
  · dsimp only
    rw [h, if_pos (equalPorts_refl_nums i.OpenPorts t n)]
  · rfl

theorem updOS_of_eq {i : AssetInfo} {s : UpdState} (n : Int)
    (h : s.1.OSInfo.Family = (extractOSInfo i).Family) : updOS i n s = s := by
  unfold updOS
  split
  · dsimp only
    rw [if_neg fun hc => hc.2 h.symm]
  · rfl

theorem updDeviceType_of_eq {i : AssetInfo} {s : UpdState} (n : Int)
    (h : s.1.DeviceType = classifyDeviceType i) : updDeviceType i n s = s := by
  unfold updDeviceType
  dsimp only
  rw [if_neg fun hc => hc.2 h.symm]

theorem Update_NewAsset_Changes (i : AssetInfo) (n1 n2 : Int) :
    (Update (NewAsset i n1) i n2).Changes = [] := by
  unfold Update
  dsimp only
  rw [updIP_of_eq n2 rfl, updHostname_of_eq n2 rfl,
    updPorts_of_self n2 n1 rfl]
  obtain ⟨sv, h4⟩ := updServices_frame i n2 _
  rw [h4]
  obtain ⟨pm, h5⟩ := updProtocols_frame i _
  rw [h5]
  rw [updOS_of_eq n2 rfl, updDeviceType_of_eq n2 rfl]
  simp [NewAsset]

/-! ### Spec-side definitions used to compare code behaviour with the
specification text -/

/-- Modelled on the spec's words (§4.2): the confidence formula
evaluated over the incoming observation's attributes, clamped into
[0,1]; in tenths. -/
def specObsConfidence (i : AssetInfo) : Nat :=
  min ((if i.MACAddress ≠ "" then 3 else 0) + (if i.IPAddress ≠ "" then 2 else 0) +
       (if i.Hostname ≠ "" then 2 else 0) + (if i.OpenPorts ≠ [] then 1 else 0) +
       (if i.Services ≠ [] then 1 else 0) + (if i.OSGuess ≠ "" then 1 else 0)) 10

/-- Modelled on the claim's words: the same formula evaluated over the
asset's stored set of known attributes; in tenths. -/
def specAssetConfidence (a : Asset) : Nat :=
  min ((if a.MACAddress ≠ "" then 3 else 0) + (if a.IPAddress ≠ "" then 2 else 0) +
       (if a.Hostname ≠ "" then 2 else 0) + (if a.OpenPorts ≠ [] then 1 else 0) +
       (if a.Services ≠ [] then 1 else 0) + (if a.OSInfo.Family ≠ "" then 1 else 0)) 10

set_option maxHeartbeats 1000000 in
theorem calculateConfidence_eq_spec (i : AssetInfo) :
    calculateConfidence i = specObsConfidence i := by
  unfold calculateConfidence specObsConfidence
  dsimp only
  simp only [gt_iff_lt, List.length_pos]
  split_ifs <;> omega

/-- Spec-words evaluator for the User-Agent OS hint: walk a priority
list of token groups and return the label of the first group with a
matching token. -/
def firstMatch (ua : String) : List (List String × String) → String
  | [] => ""
  | (toks, res) :: rest =>
    if toks.any fun t => strContains ua t then res else firstMatch ua rest

/-- The priority order actually implemented by
`guessOSFromUserAgent`. -/
def uaRules : List (List String × String) :=
  [(["windows"], "Windows"),
   (["mac os x", "macos"], "macOS"),
   (["linux"], "Linux"),
   (["android"], "Android"),
   (["iphone", "ipad"], "iOS")]

/-- Spec-words equality of two port-number sets, compared by port
number only. -/
def sameIntSet (xs ys : List Int) : Bool :=
  (xs.all fun x => ys.contains x) && (ys.all fun y => xs.contains y)

/-! ### Claim C9 -/

/-- C9: `guessOSFromTTL` is total on TTL values 0..255, its output is
one of Linux/Unix, Windows, Cisco/Network Device following the bands
TTL ≤ 64, 64 < TTL ≤ 128, 128 < TTL ≤ 255, and the empty-string
default branch is unreachable. -/
theorem c9_ttl_partition (ttl : Nat) (h : ttl ≤ 255) :
    (guessOSFromTTL ttl =
      if ttl ≤ 64 then "Linux/Unix"
      else if ttl ≤ 128 then "Windows"
      else "Cisco/Network Device") ∧
    (guessOSFromTTL ttl = "Linux/Unix" ∨ guessOSFromTTL ttl = "Windows" ∨
      guessOSFromTTL ttl = "Cisco/Network Device") ∧
    guessOSFromTTL ttl ≠ "" := by
  unfold guessOSFromTTL
  split_ifs with h1 h2
  · exact ⟨rfl, Or.inl rfl, by decide⟩
  · exact ⟨rfl, Or.inr (Or.inl rfl), by decide⟩
  · exact ⟨rfl, Or.inr (Or.inr rfl), by decide⟩

/-- Witness for C9 at TTL 200. -/
theorem c9_ttl_partition_witness :
    200 ≤ 255 ∧
    ((guessOSFromTTL 200 =
        if (200 : Nat) ≤ 64 then "Linux/Unix"
        else if (200 : Nat) ≤ 128 then "Windows"
        else "Cisco/Network Device") ∧
      (guessOSFromTTL 200 = "Linux/Unix" ∨ guessOSFromTTL 200 = "Windows" ∨
        guessOSFromTTL 200 = "Cisco/Network Device") ∧
      guessOSFromTTL 200 ≠ "") :=
  ⟨by decide, c9_ttl_partition 200 (by decide)⟩

/-! ### Claim C7 -/

/-- C7 counterexample: a User-Agent containing both "linux" and
"android" is classified "Linux", not "Android" as the claimed priority
order (android first) would require. -/
theorem c7_counterexample :
    strContains (strToLower "Linux; Android") "android" = true ∧
    strContains (strToLower "Linux; Android") "linux" = true ∧
    guessOSFromUserAgent "Linux; Android" = "Linux" ∧
    guessOSFromUserAgent "Linux; Android" ≠ "Android" := by
  refine ⟨by decide, by decide, by decide, by decide⟩

/-- C7 amended: the OS hint is a case-insensitive substring match in
the priority order windows, mac os x/macos, linux, android,
iphone/ipad (first match wins); in particular a User-Agent containing
both "android" and "linux" yields Linux. -/
theorem c7_ua_priority_amended :
    (∀ ua, guessOSFromUserAgent ua = firstMatch (strToLower ua) uaRules) ∧
    guessOSFromUserAgent "Linux; Android 10; Pixel" = "Linux" := by
  constructor
  · intro ua
    simp only [guessOSFromUserAgent, firstMatch, uaRules, List.any_cons,
      List.any_nil, Bool.or_false]
  · decide

/-! ### Claim C10 -/

/-- C10: `Update` never writes the stored vendor, even when the
observation carries a different non-empty vendor; and the device-type
reclassification inside `Update` is computed by `classifyDeviceType`
on the incoming observation (hence from the observation's vendor), not
from the asset's stored vendor. -/
theorem c10_vendor_frame (a : Asset) (i : AssetInfo) (n : Int) :
    (Update a i n).Vendor = a.Vendor ∧
    (Update a i n).DeviceType =
      (if classifyDeviceType i ≠ "" ∧ classifyDeviceType i ≠ a.DeviceType
       then classifyDeviceType i else a.DeviceType) := by
  constructor
  · obtain ⟨ip, host, ps, sv, pm, os, dt, δ, h⟩ := Update_decomp a i n
    rw [h]
  · unfold Update
    dsimp only
    obtain ⟨ip, δ1, h1, -⟩ := updIP_frame i n (a, [])
    rw [h1]
    obtain ⟨host, δ2, h2, -⟩ := updHostname_frame i n _
    rw [h2]
    obtain ⟨ps, δ3, h3, -⟩ := updPorts_frame i n _
    rw [h3]
    obtain ⟨sv, h4⟩ := updServices_frame i n _
    rw [h4]
    obtain ⟨pm, h5⟩ := updProtocols_frame i _
    rw [h5]
    obtain ⟨os, δ6, h6, -⟩ := updOS_frame i n _
    rw [h6]
    unfold updDeviceType
    dsimp only
    split_ifs with hc
    · rfl
    · rfl

/-! ### Claim C3 -/

/-- Observation used to create the C3 asset: MAC, IP and hostname all
known. -/
def c3InfoFull : AssetInfo :=
  { IPAddress := "192.168.1.10", MACAddress := "aa:bb:cc:dd:ee:ff",
    Hostname := "alice-pc", Vendor := "", DeviceType := "", OSGuess := "",
    Timestamp := 0, OpenPorts := [], Services := [], Protocols := [] }

/-- Follow-up observation for C3 carrying only the MAC address. -/
def c3InfoMacOnly : AssetInfo :=
  { IPAddress := "", MACAddress := "aa:bb:cc:dd:ee:ff", Hostname := "",
    Vendor := "", DeviceType := "", OSGuess := "", Timestamp := 0,
    OpenPorts := [], Services := [], Protocols := [] }

/-- C3 counterexample: after merging a MAC-only observation into an
asset that still knows MAC, IP and hostname, the stored confidence is
0.3 while the claimed formula over the asset's known attributes gives
0.7 — the code computes confidence from the observation, not from the
asset. -/
theorem c3_counterexample :
    (Update (NewAsset c3InfoFull 0) c3InfoMacOnly 1).Confidence = 3 ∧
    specAssetConfidence (Update (NewAsset c3InfoFull 0) c3InfoMacOnly 1) = 7 ∧
    (3 : Nat) ≠ 7 := by
  refine ⟨by decide, by decide, by decide⟩

/-- C3 amended: after every merge the asset's confidence equals the
clamped formula evaluated over the incoming observation's attributes
(0.3 MAC + 0.2 IPv4 + 0.2 hostname + 0.1 ports + 0.1 services +
0.1 OS guess, clamped to [0,1]), and the value lies in [0,1] (in
tenths: ≤ 10). -/
theorem c3_confidence_amended (a : Asset) (i : AssetInfo) (n : Int) :
    (Update a i n).Confidence = specObsConfidence i ∧
    specObsConfidence i ≤ 10 := by
  constructor
  · rw [Update_Confidence, calculateConfidence_eq_spec]
  · exact Nat.min_le_right _ 10

/-! ### Claim C6 -/

/-- An observation carrying no identifying attribute at all. -/
def c6InfoEmpty : AssetInfo :=
  { IPAddress := "", MACAddress := "", Hostname := "", Vendor := "",
    DeviceType := "", OSGuess := "", Timestamp := 0, OpenPorts := [],
    Services := [], Protocols := [] }

/-- An empty manager state. -/
def c6State : ManagerState :=
  { assets := [],
    stats := { TotalAssets := 0, ActiveAssets := 0, NewAssets := 0,
               LastUpdate := 0, DeviceTypes := [], OSDistribution := [] } }

/-- C6 counterexample: an observation with neither MAC nor IPv4 is not
discarded — `UpdateAsset` creates a record for it under the fallback
identifier `unknown_<timestamp>`. -/
theorem c6_counterexample :
    (UpdateAsset c6State (some c6InfoEmpty) 5).assets =
      [("unknown_" ++ toString (5 : Int), NewAsset c6InfoEmpty 5)] ∧
    "unknown_" ++ toString (5 : Int) = "unknown_5" := by
  exact ⟨rfl, rfl⟩

/-- C6 amended: a nil observation is discarded and the manager state is
completely unchanged; an observation with missing identity (no MAC and
no IPv4) is not discarded: the table afterwards holds a record under
the fallback key `unknown_<timestamp>`. -/
theorem c6_merge_errors_amended (s : ManagerState) (now : Int) :
    UpdateAsset s none now = s ∧
    ∀ i : AssetInfo, i.MACAddress = "" → i.IPAddress = "" →
      ∃ a, mapFind Prod.fst (UpdateAsset s (some i) now).assets
             ("unknown_" ++ toString now) =
           some ("unknown_" ++ toString now, a) := by
  constructor
  · rfl
  · intro i h1 h2
    have hid : generateAssetID i now = "unknown_" ++ toString now := by
      unfold generateAssetID
      rw [if_neg (by simp [h1]), if_neg (by simp [h2])]
    unfold UpdateAsset
    dsimp only
    rw [hid]
    cases hf : mapFind Prod.fst s.assets ("unknown_" ++ toString now) with
    | some e =>
      refine ⟨Update e.2 i now, ?_⟩
      dsimp only
      rw [mapFind_put]
      simp
    | none =>
      refine ⟨NewAsset i now, ?_⟩
      dsimp only
      rw [mapFind_put]
      simp

/-- Witness for C6 at the empty state and the identity-free
observation. -/
theorem c6_merge_errors_witness :
    UpdateAsset c6State none 5 = c6State ∧
    (c6InfoEmpty.MACAddress = "" ∧ c6InfoEmpty.IPAddress = "") ∧
    ∃ a, mapFind Prod.fst (UpdateAsset c6State (some c6InfoEmpty) 5).assets
           ("unknown_" ++ toString (5 : Int)) =
         some ("unknown_" ++ toString (5 : Int), a) :=
  ⟨(c6_merge_errors_amended c6State 5).1, ⟨rfl, rfl⟩,
    (c6_merge_errors_amended c6State 5).2 c6InfoEmpty rfl rfl⟩

/-! ### Claim C4 -/

theorem SetInactive_of_active {a : Asset} (n : Int) (h : a.IsActive = true) :
    SetInactive a n =
      { a with IsActive := false, LastUpdate := n,
               Changes := a.Changes ++ [statusChangeRecord n] } := by
  unfold SetInactive
  rw [if_pos h]

/-- C4: an expiry pass at instant `now` with timeout `timeout` leaves
no asset both active and last seen strictly before `now - timeout`;
every flipped asset receives exactly one status-change journal entry
with old value true and new value false; no asset is added or removed
(the key sequence is unchanged); and assets that were not both active
and stale — in particular already-inactive ones — are kept exactly as
they were. -/
theorem c4_expiry (s : ManagerState) (now timeout : Int) :
    ((cleanupInactiveAssets s now timeout).assets.map Prod.fst =
      s.assets.map Prod.fst) ∧
    (∀ e ∈ (cleanupInactiveAssets s now timeout).assets,
      ¬(e.2.IsActive = true ∧ e.2.LastSeen < now - timeout)) ∧
    (∀ e ∈ s.assets, (e.2.IsActive = true ∧ e.2.LastSeen < now - timeout) →
      ((e.1, SetInactive e.2 now) ∈ (cleanupInactiveAssets s now timeout).assets ∧
       (SetInactive e.2 now).IsActive = false ∧
       (SetInactive e.2 now).Changes = e.2.Changes ++ [statusChangeRecord now])) ∧
    (∀ e ∈ s.assets, ¬(e.2.IsActive = true ∧ e.2.LastSeen < now - timeout) →
      e ∈ (cleanupInactiveAssets s now timeout).assets) := by
  refine ⟨?_, ?_, ?_, ?_⟩
  · unfold cleanupInactiveAssets
    dsimp only
    rw [List.map_map]
    refine List.map_congr_left fun e he => ?_
    dsimp only [Function.comp]
    split <;> rfl
  · intro e he
    unfold cleanupInactiveAssets at he
    dsimp only at he
    rcases List.mem_map.mp he with ⟨x, hx, hxe⟩
    by_cases hc : x.2.IsActive = true ∧ x.2.LastSeen < now - timeout
    · rw [if_pos hc] at hxe
      subst hxe
      dsimp only
      rw [SetInactive_of_active now hc.1]
      rintro ⟨habs, -⟩
      cases habs
    · rw [if_neg hc] at hxe
      subst hxe
      exact hc
  · intro e he hc
    refine ⟨?_, ?_, ?_⟩
    · unfold cleanupInactiveAssets
      dsimp only
      have := List.mem_map_of_mem
        (fun e => if e.2.IsActive = true ∧ e.2.LastSeen < now - timeout
                  then (e.1, SetInactive e.2 now) else e) he
      dsimp only at this
      rw [if_pos hc] at this
      exact this
    · rw [SetInactive_of_active now hc.1]
    · rw [SetInactive_of_active now hc.1]
  · intro e he hc
    unfold cleanupInactiveAssets
    dsimp only
    have := List.mem_map_of_mem
      (fun e => if e.2.IsActive = true ∧ e.2.LastSeen < now - timeout
                then (e.1, SetInactive e.2 now) else e) he
    dsimp only at this
    rw [if_neg hc] at this
    exact this

/-- A stale active asset used to witness C4. -/
def c4Asset : Asset := NewAsset c3InfoFull 0

/-- A one-asset manager state for the C4 witness. -/
def c4State : ManagerState :=
  { assets := [("mac_aa:bb:cc:dd:ee:ff", c4Asset)],
    stats := { TotalAssets := 1, ActiveAssets := 1, NewAssets := 1,
               LastUpdate := 0, DeviceTypes := [], OSDistribution := [] } }

/-- Witness for C4: cleanup at instant 100 with timeout 10 flips the
asset last seen at 0. -/
theorem c4_expiry_witness :
    (c4Asset.IsActive = true ∧ c4Asset.LastSeen < 100 - 10) ∧
    ("mac_aa:bb:cc:dd:ee:ff", SetInactive c4Asset 100) ∈
      (cleanupInactiveAssets c4State 100 10).assets ∧
    (SetInactive c4Asset 100).IsActive = false ∧
    (SetInactive c4Asset 100).Changes =
      c4Asset.Changes ++ [statusChangeRecord 100] := by
  have hmem : ("mac_aa:bb:cc:dd:ee:ff", c4Asset) ∈ c4State.assets := by
    exact List.mem_singleton.mpr rfl
  have hc : c4Asset.IsActive = true ∧ c4Asset.LastSeen < 100 - 10 :=
    ⟨rfl, by decide⟩
  exact ⟨hc, (c4_expiry c4State 100 10).2.2.1 _ hmem hc⟩

/-! ### Claim C1 -/

theorem mapFind_map {α : Type} {κ : Type} [DecidableEq κ] (key : α → κ)
    (g : α → α) (hg : ∀ x, key (g x) = key x) (l : List α) (k : κ) :
    mapFind key (l.map g) k = (mapFind key l k).map g := by
  induction l with
  | nil => simp [mapFind]
  | cons y ys ih =>
    simp only [List.map_cons, mapFind, hg y]
    split
    · rfl
    · exact ih

theorem UpdateAsset_existing {s : ManagerState} {ex : String × Asset}
    (i : AssetInfo) (now : Int)
    (hf : mapFind Prod.fst s.assets (generateAssetID i now) = some ex) :
    UpdateAsset s (some i) now =
      { s with assets :=
          mapPut Prod.fst s.assets (generateAssetID i now, Update ex.2 i now) } := by
  unfold UpdateAsset
  dsimp only
  rw [hf]

theorem UpdateAsset_new {s : ManagerState} (i : AssetInfo) (now : Int)
    (hf : mapFind Prod.fst s.assets (generateAssetID i now) = none) :
    UpdateAsset s (some i) now =
      { s with
          assets := mapPut Prod.fst s.assets (generateAssetID i now, NewAsset i now),
          stats := { s.stats with NewAssets := s.stats.NewAssets + 1 } } := by
  unfold UpdateAsset
  dsimp only
  rw [hf]

theorem applyOp_find (s : ManagerState) (op : Op) (id : String)
    (e : String × Asset) (h : mapFind Prod.fst s.assets id = some e) :
    ∃ e', mapFind Prod.fst (applyOp s op).assets id = some e' ∧
      e'.2.ID = e.2.ID := by
  cases op with
  | update info now =>
    cases info with
    | none => exact ⟨e, h, rfl⟩
    | some i =>
      show ∃ e', mapFind Prod.fst (UpdateAsset s (some i) now).assets id = some e' ∧ _
      cases hf : mapFind Prod.fst s.assets (generateAssetID i now) with
      | some ex =>
        rw [UpdateAsset_existing i now hf]
        dsimp only
        rw [mapFind_put]
        dsimp only
        by_cases hk : generateAssetID i now = id
        · have hex : ex = e := by
            rw [hk] at hf
            rw [hf] at h
            exact Option.some.inj h
          rw [if_pos hk]
          exact ⟨_, rfl, by dsimp only; rw [Update_ID, hex]⟩
        · rw [if_neg hk]
          exact ⟨e, h, rfl⟩
      | none =>
        rw [UpdateAsset_new i now hf]
        dsimp only
        rw [mapFind_put]
        dsimp only
        by_cases hk : generateAssetID i now = id
        · rw [hk] at hf
          rw [hf] at h
          cases h
        · rw [if_neg hk]
          exact ⟨e, h, rfl⟩
  | cleanup now timeout =>
    show ∃ e', mapFind Prod.fst (cleanupInactiveAssets s now timeout).assets id = some e' ∧ _
    unfold cleanupInactiveAssets
    dsimp only
    rw [mapFind_map Prod.fst _ (fun x => by split <;> rfl), h]
    refine ⟨_, rfl, ?_⟩
    dsimp only
    split
    · exact SetInactive_ID e.2 now
    · rfl
  | stats now => exact ⟨e, h, rfl⟩

theorem applyOps_find (ops : List Op) (s : ManagerState) (id : String)
    (e : String × Asset) (h : mapFind Prod.fst s.assets id = some e) :
    ∃ e', mapFind Prod.fst (applyOps s ops).assets id = some e' ∧
      e'.2.ID = e.2.ID := by
  induction ops generalizing s e with
  | nil => exact ⟨e, h, rfl⟩
  | cons op rest ih =>
    obtain ⟨e1, h1, hid1⟩ := applyOp_find s op id e h
    obtain ⟨e2, h2, hid2⟩ := ih (applyOp s op) e1 h1
    exact ⟨e2, h2, hid2.trans hid1⟩

/-- C1: a freshly created asset's identifier is the identity function
applied to the observation (the same key it is stored under), and for
every table, every stored record and every sequence of merge, expiry
and statistics operations, the record is still present under its key
afterwards with an unchanged identifier. -/
theorem c1_identity_stable :
    (∀ (i : AssetInfo) (now : Int), (NewAsset i now).ID = generateAssetID i now) ∧
    (∀ (s : ManagerState) (ops : List Op) (id : String) (e : String × Asset),
      mapFind Prod.fst s.assets id = some e →
      ∃ e', mapFind Prod.fst (applyOps s ops).assets id = some e' ∧
        e'.2.ID = e.2.ID) :=
  ⟨fun _ _ => rfl, fun s ops id e h => applyOps_find ops s id e h⟩

/-- Witness for C1 on a one-asset table with a merge, an expiry pass
and a statistics pass. -/
theorem c1_identity_stable_witness :
    (NewAsset c3InfoFull 0).ID = generateAssetID c3InfoFull 0 ∧
    mapFind Prod.fst c4State.assets "mac_aa:bb:cc:dd:ee:ff" =
      some ("mac_aa:bb:cc:dd:ee:ff", c4Asset) ∧
    ∃ e', mapFind Prod.fst
        (applyOps c4State
          [Op.update (some c3InfoMacOnly) 2, Op.cleanup 100 10, Op.stats 101]).assets
        "mac_aa:bb:cc:dd:ee:ff" = some e' ∧
      e'.2.ID = ("mac_aa:bb:cc:dd:ee:ff", c4Asset).2.ID :=
  ⟨c1_identity_stable.1 c3InfoFull 0, rfl,
    c1_identity_stable.2 c4State
      [Op.update (some c3InfoMacOnly) 2, Op.cleanup 100 10, Op.stats 101]
      "mac_aa:bb:cc:dd:ee:ff" ("mac_aa:bb:cc:dd:ee:ff", c4Asset) rfl⟩

/-! ### Claim C8 -/

theorem generateAssetID_time_indep {i : AssetInfo}
    (hid : i.MACAddress ≠ "" ∨ i.IPAddress ≠ "") (n1 n2 : Int) :
    generateAssetID i n2 = generateAssetID i n1 := by
  unfold generateAssetID
  split_ifs with h1 h2
  · rfl
  · rfl
  · tauto

/-- C8: merging the same identified observation twice into an empty
table yields exactly one asset; the second merge appends nothing to
the change journal (it stays as created, i.e. empty), and last-seen is
refreshed to the instant of the second merge. -/
theorem c8_idempotent_merge (i : AssetInfo) (n1 n2 : Int) (st : AssetStats)
    (hid : i.MACAddress ≠ "" ∨ i.IPAddress ≠ "") :
    (UpdateAsset ⟨[], st⟩ (some i) n1).assets =
      [(generateAssetID i n1, NewAsset i n1)] ∧
    (UpdateAsset (UpdateAsset ⟨[], st⟩ (some i) n1) (some i) n2).assets =
      [(generateAssetID i n1, Update (NewAsset i n1) i n2)] ∧
    (Update (NewAsset i n1) i n2).Changes = (NewAsset i n1).Changes ∧
    (Update (NewAsset i n1) i n2).LastSeen = n2 := by
  have hs1 : (UpdateAsset ⟨[], st⟩ (some i) n1).assets =
      [(generateAssetID i n1, NewAsset i n1)] := rfl
  refine ⟨hs1, ?_, ?_, Update_LastSeen _ _ _⟩
  · have hfind : mapFind Prod.fst (UpdateAsset ⟨[], st⟩ (some i) n1).assets
        (generateAssetID i n2) = some (generateAssetID i n1, NewAsset i n1) := by
      rw [hs1, generateAssetID_time_indep hid n1 n2]
      simp [mapFind]
    rw [UpdateAsset_existing i n2 hfind]
    dsimp only
    rw [hs1, generateAssetID_time_indep hid n1 n2]
    simp [mapPut]
  · rw [Update_NewAsset_Changes]
    rfl

/-- Witness for C8 with a MAC-identified observation at instants 1
and 2. -/
theorem c8_idempotent_merge_witness :
    (c3InfoFull.MACAddress ≠ "" ∨ c3InfoFull.IPAddress ≠ "") ∧
    ((UpdateAsset ⟨[], c6State.stats⟩ (some c3InfoFull) 1).assets =
        [(generateAssetID c3InfoFull 1, NewAsset c3InfoFull 1)] ∧
      (UpdateAsset (UpdateAsset ⟨[], c6State.stats⟩ (some c3InfoFull) 1)
          (some c3InfoFull) 2).assets =
        [(generateAssetID c3InfoFull 1, Update (NewAsset c3InfoFull 1) c3InfoFull 2)] ∧
      (Update (NewAsset c3InfoFull 1) c3InfoFull 2).Changes =
        (NewAsset c3InfoFull 1).Changes ∧
      (Update (NewAsset c3InfoFull 1) c3InfoFull 2).LastSeen = 2) :=
  ⟨Or.inl (by decide),
    c8_idempotent_merge c3InfoFull 1 2 c6State.stats (Or.inl (by decide))⟩

/-! ### Port-set bridge lemmas: the code's `equalPorts` versus the
spec's port-number-set equality -/

theorem sameIntSet_iff (xs ys : List Int) :
    sameIntSet xs ys = true ↔ ∀ x : Int, x ∈ xs ↔ x ∈ ys := by
  unfold sameIntSet
  rw [Bool.and_eq_true, List.all_eq_true, List.all_eq_true]
  constructor
  · rintro ⟨h1, h2⟩ x
    constructor
    · intro hx
      simpa using h1 x hx
    · intro hy
      simpa using h2 x hy
  · intro h
    constructor
    · intro x hx
      simpa using (h x).mp hx
    · intro y hy
      simpa using (h y).mpr hy

theorem equalPorts_eq_true_iff (a b : List PortInfo) :
    equalPorts a b = true ↔
      (a.length = b.length ∧ ∀ p ∈ b, ∃ q ∈ a, q.Port = p.Port) := by
  unfold equalPorts
  split
  · next hne =>
    constructor
    · intro h
      cases h
    · rintro ⟨hlen, -⟩
      exact absurd hlen hne
  · next hl =>
    rw [not_not] at hl
    rw [List.all_eq_true]
    constructor
    · intro h
      refine ⟨hl, fun p hp => ?_⟩
      rcases List.any_eq_true.mp (h p hp) with ⟨q, hq, hbeq⟩
      exact ⟨q, hq, by simpa using hbeq⟩
    · rintro ⟨-, h⟩
      intro p hp
      rcases h p hp with ⟨q, hq, hqp⟩
      rw [List.any_eq_true]
      exact ⟨q, hq, by simpa using hqp⟩

theorem mem_map_iff_find_ne_none {α : Type} {κ : Type} [DecidableEq κ]
    (key : α → κ) (m : List α) (k : κ) :
    k ∈ m.map key ↔ mapFind key m k ≠ none := by
  constructor
  · intro hk hnone
    rcases List.mem_map.mp hk with ⟨x, hx, hkey⟩
    exact (mapFind_eq_none_iff key m k).mp hnone x hx hkey
  · intro hne
    cases hf : mapFind key m k with
    | none => exact absurd hf hne
    | some x =>
      exact (mapFind_key key hf) ▸ List.mem_map_of_mem key (mapFind_mem key hf)

theorem equalPorts_iff_sameSet {a b : List PortInfo}
    (ha : (a.map PortInfo.Port).Nodup) (hb : (b.map PortInfo.Port).Nodup) :
    equalPorts a b = sameIntSet (a.map PortInfo.Port) (b.map PortInfo.Port) := by
  rw [Bool.eq_iff_iff, equalPorts_eq_true_iff, sameIntSet_iff]
  constructor
  · rintro ⟨hlen, hsub⟩ x
    have hsub' : (b.map PortInfo.Port) ⊆ (a.map PortInfo.Port) := by
      intro y hy
      rcases List.mem_map.mp hy with ⟨p, hp, rfl⟩
      rcases hsub p hp with ⟨q, hq, hqp⟩
      exact hqp ▸ List.mem_map_of_mem PortInfo.Port hq
    have hBA : (b.map PortInfo.Port).toFinset ⊆ (a.map PortInfo.Port).toFinset := by
      intro y hy
      rw [List.mem_toFinset] at hy ⊢
      exact hsub' hy
    have hcard : (a.map PortInfo.Port).toFinset.card ≤
        (b.map PortInfo.Port).toFinset.card := by
      rw [List.toFinset_card_of_nodup ha, List.toFinset_card_of_nodup hb]
      simp [hlen]
    have heq := Finset.eq_of_subset_of_card_le hBA hcard
    constructor
    · intro hx
      have : x ∈ (a.map PortInfo.Port).toFinset := List.mem_toFinset.mpr hx
      rw [← heq] at this
      exact List.mem_toFinset.mp this
    · intro hx
      exact hsub' hx
  · intro h
    have heq : (a.map PortInfo.Port).toFinset = (b.map PortInfo.Port).toFinset := by
      apply Finset.ext
      intro x
      rw [List.mem_toFinset, List.mem_toFinset]
      exact h x
    constructor
    · have := congrArg Finset.card heq
      rw [List.toFinset_card_of_nodup ha, List.toFinset_card_of_nodup hb] at this
      simpa using this
    · intro p hp
      have hx : p.Port ∈ a.map PortInfo.Port :=
        (h p.Port).mpr (List.mem_map_of_mem PortInfo.Port hp)
      rcases List.mem_map.mp hx with ⟨q, hq, hqp⟩
      exact ⟨q, hq, hqp⟩

theorem convertPorts_nums (l : List Int) (t : Int) :
    (convertPorts l t).map PortInfo.Port = l := by
  induction l with
  | nil => rfl
  | cons x xs ih =>
    simpa [convertPorts] using ih

theorem convertPorts_fields {q : PortInfo} {l : List Int} {t : Int}
    (h : q ∈ convertPorts l t) : q.LastSeen = t ∧ q.FirstSeen = t := by
  rcases List.mem_map.mp h with ⟨x, -, rfl⟩
  exact ⟨rfl, rfl⟩

theorem updPorts_id {i : AssetInfo} {s : UpdState} (now : Int)
    (h : equalPorts s.1.OpenPorts (convertPorts i.OpenPorts now) = true ∨
      i.OpenPorts = []) : updPorts i now s = s := by
  unfold updPorts
  split
  · next hlen =>
    dsimp only
    rcases h with h | h
    · rw [if_pos h]
    · rw [h] at hlen
      cases hlen
  · rfl

theorem updPorts_merge {i : AssetInfo} {s : UpdState} (now : Int)
    (hne : i.OpenPorts ≠ [])
    (h : equalPorts s.1.OpenPorts (convertPorts i.OpenPorts now) = false) :
    updPorts i now s =
      ({ s.1 with OpenPorts := mergePorts s.1.OpenPorts (convertPorts i.OpenPorts now) },
        s.2 ++ [{ Timestamp := now, ChangeType := "ports_change",
                  OldValue := ChangeValue.ports s.1.OpenPorts,
                  NewValue := ChangeValue.ports (convertPorts i.OpenPorts now),
                  Description := "开放端口发生变更" }]) := by
  unfold updPorts
  rw [if_pos (by simpa [List.length_pos] using hne)]
  dsimp only
  rw [if_neg (by simp [h])]

/-- Content of `mergePorts` on duplicate-free inputs: for every port
number, the merged map holds the existing entry (with last-seen taken
from the new entry when the port was re-observed) or the new entry. -/
theorem mergePorts_find {existing : List PortInfo}
    (hndE : (existing.map PortInfo.Port).Nodup)
    {newPorts : List PortInfo} (hndN : (newPorts.map PortInfo.Port).Nodup)
    (k : Int) :
    mapFind PortInfo.Port (mergePorts existing newPorts) k =
      stepValue portMod (mapFind PortInfo.Port existing k)
        (mapFind PortInfo.Port newPorts k) := by
  rw [mergePorts_phase1 hndE]
  exact mapFind_foldl_mapStep PortInfo.Port portMod portMod_key hndN existing k

/-- Ports-and-journal behaviour of `Update`: when the code's port-set
test succeeds (or no ports arrive) the port list and the ports_change
count are unchanged; when it fails on a non-empty incoming list, the
lists are merged and exactly one ports_change entry is journaled. -/
theorem Update_ports_detail (a : Asset) (i : AssetInfo) (now : Int) :
    ((equalPorts a.OpenPorts (convertPorts i.OpenPorts now) = true ∨
        i.OpenPorts = []) →
      (Update a i now).OpenPorts = a.OpenPorts ∧
      countChanges "ports_change" (Update a i now).Changes =
        countChanges "ports_change" a.Changes) ∧
    (equalPorts a.OpenPorts (convertPorts i.OpenPorts now) = false →
      i.OpenPorts ≠ [] →
      (Update a i now).OpenPorts =
        mergePorts a.OpenPorts (convertPorts i.OpenPorts now) ∧
      countChanges "ports_change" (Update a i now).Changes =
        countChanges "ports_change" a.Changes + 1) := by
  unfold Update
  dsimp only
  obtain ⟨ip, δ1, h1, hty1⟩ := updIP_frame i now (a, [])
  rw [h1]
  obtain ⟨host, δ2, h2, hty2⟩ := updHostname_frame i now _
  rw [h2]
  constructor
  · intro hc
    rw [updPorts_id now hc]
    obtain ⟨sv, h4⟩ := updServices_frame i now _
    rw [h4]
    obtain ⟨pm, h5⟩ := updProtocols_frame i _
    rw [h5]
    obtain ⟨os, δ6, h6, hty6⟩ := updOS_frame i now _
    rw [h6]
    obtain ⟨dt, δ7, h7, hty7⟩ := updDeviceType_frame i now _
    rw [h7]
    refine ⟨rfl, ?_⟩
    dsimp only
    rw [countChanges_append, countChanges_append, countChanges_append,
      countChanges_append, countChanges_append,
      countChanges_of_ne hty1 (by decide), countChanges_of_ne hty2 (by decide),
      countChanges_of_ne hty6 (by decide), countChanges_of_ne hty7 (by decide)]
    simp [countChanges]
  · intro hc hne
    rw [updPorts_merge now hne hc]
    obtain ⟨sv, h4⟩ := updServices_frame i now _
    rw [h4]
    obtain ⟨pm, h5⟩ := updProtocols_frame i _
    rw [h5]
    obtain ⟨os, δ6, h6, hty6⟩ := updOS_frame i now _
    rw [h6]
    obtain ⟨dt, δ7, h7, hty7⟩ := updDeviceType_frame i now _
    rw [h7]
    refine ⟨rfl, ?_⟩
    dsimp only
    rw [countChanges_append, countChanges_append, countChanges_append,
      countChanges_append, countChanges_append, countChanges_append,
      countChanges_of_ne hty1 (by decide), countChanges_of_ne hty2 (by decide),
      countChanges_of_ne hty6 (by decide), countChanges_of_ne hty7 (by decide)]
    simp [countChanges]

/-! ### Claim C2 -/

/-- Observation seeding the C2 asset with ports 22 and 80. -/
def c2Info1 : AssetInfo :=
  { IPAddress := "", MACAddress := "aa", Hostname := "", Vendor := "",
    DeviceType := "", OSGuess := "", Timestamp := 0, OpenPorts := [22, 80],
    Services := [], Protocols := [] }

/-- Incoming observation for the C2 counterexample: port 22 listed
twice. -/
def c2Info2 : AssetInfo :=
  { IPAddress := "", MACAddress := "aa", Hostname := "", Vendor := "",
    DeviceType := "", OSGuess := "", Timestamp := 0, OpenPorts := [22, 22],
    Services := [], Protocols := [] }

/-- Incoming observation for the C2 witness: ports 22 and 443. -/
def c2Info3 : AssetInfo :=
  { IPAddress := "", MACAddress := "aa", Hostname := "", Vendor := "",
    DeviceType := "", OSGuess := "", Timestamp := 0, OpenPorts := [22, 443],
    Services := [], Protocols := [] }

/-- C2 counterexample: the asset knows ports 22 and 80, the incoming
non-empty list [22, 22] has the different port-number set, yet no
ports_change entry is journaled — `equalPorts` only compares lengths
and inclusion of new port numbers, which duplicate entries fool. -/
theorem c2_counterexample :
    c2Info2.OpenPorts ≠ [] ∧
    sameIntSet ((NewAsset c2Info1 0).OpenPorts.map PortInfo.Port)
      c2Info2.OpenPorts = false ∧
    countChanges "ports_change" (Update (NewAsset c2Info1 0) c2Info2 1).Changes =
      countChanges "ports_change" (NewAsset c2Info1 0).Changes := by
  refine ⟨by decide, by decide, by decide⟩

/-- C2 amended: when the asset's port numbers and the incoming
non-empty port list are both duplicate-free, the merge journals
exactly one ports_change precisely when the two port-number sets
differ; in that case existing entries keep their first-seen, re-seen
entries adopt last-seen = now, all new ports are added and no port is
removed; when the sets are equal nothing is journaled and the port
list is untouched. -/
theorem c2_ports_merge_amended (a : Asset) (i : AssetInfo) (now : Int)
    (hndA : (a.OpenPorts.map PortInfo.Port).Nodup)
    (hndI : i.OpenPorts.Nodup)
    (hne : i.OpenPorts ≠ []) :
    (sameIntSet (a.OpenPorts.map PortInfo.Port) i.OpenPorts = true →
      countChanges "ports_change" (Update a i now).Changes =
        countChanges "ports_change" a.Changes ∧
      (Update a i now).OpenPorts = a.OpenPorts) ∧
    (sameIntSet (a.OpenPorts.map PortInfo.Port) i.OpenPorts = false →
      countChanges "ports_change" (Update a i now).Changes =
        countChanges "ports_change" a.Changes + 1 ∧
      (∀ p ∈ a.OpenPorts, ∃ q ∈ (Update a i now).OpenPorts,
        q.Port = p.Port ∧ q.FirstSeen = p.FirstSeen ∧
        q.LastSeen = (if p.Port ∈ i.OpenPorts then now else p.LastSeen)) ∧
      (∀ x ∈ i.OpenPorts, ∃ q ∈ (Update a i now).OpenPorts, q.Port = x)) := by
  have hnums : (convertPorts i.OpenPorts now).map PortInfo.Port = i.OpenPorts :=
    convertPorts_nums _ _
  have hndN : ((convertPorts i.OpenPorts now).map PortInfo.Port).Nodup := by
    rw [hnums]
    exact hndI
  have heq : equalPorts a.OpenPorts (convertPorts i.OpenPorts now) =
      sameIntSet (a.OpenPorts.map PortInfo.Port) i.OpenPorts := by
    rw [equalPorts_iff_sameSet hndA hndN, hnums]
  constructor
  · intro hsame
    obtain ⟨hports, hcount⟩ :=
      (Update_ports_detail a i now).1 (Or.inl (heq.trans hsame))
    exact ⟨hcount, hports⟩
  · intro hdiff
    obtain ⟨hports, hcount⟩ :=
      (Update_ports_detail a i now).2 (heq.trans hdiff) hne
    refine ⟨hcount, ?_, ?_⟩
    · intro p hp
      have hfA : mapFind PortInfo.Port a.OpenPorts p.Port = some p :=
        mapFind_of_mem_nodup PortInfo.Port hndA hp
      have hchar := mergePorts_find hndA hndN p.Port
      rw [hfA] at hchar
      cases hfN : mapFind PortInfo.Port (convertPorts i.OpenPorts now) p.Port with
      | some q =>
        rw [hfN] at hchar
        simp only [stepValue, hitValue] at hchar
        have hq := convertPorts_fields (mapFind_mem PortInfo.Port hfN)
        have hmem : p.Port ∈ i.OpenPorts := by
          rw [← hnums]
          refine (mem_map_iff_find_ne_none _ _ _).mpr ?_
          rw [hfN]
          simp
        refine ⟨portMod p q, ?_, rfl, rfl, ?_⟩
        · rw [hports]
          exact mapFind_mem PortInfo.Port hchar
        · rw [if_pos hmem]
          show q.LastSeen = now
          exact hq.1
      | none =>
        rw [hfN] at hchar
        simp only [stepValue] at hchar
        have hmem : p.Port ∉ i.OpenPorts := by
          rw [← hnums]
          intro hmm
          exact (mem_map_iff_find_ne_none _ _ _).mp hmm hfN
        refine ⟨p, ?_, rfl, rfl, by rw [if_neg hmem]⟩
        rw [hports]
        exact mapFind_mem PortInfo.Port hchar
    · intro x hx
      have hxk : x ∈ (convertPorts i.OpenPorts now).map PortInfo.Port := by
        rw [hnums]
        exact hx
      cases hfN : mapFind PortInfo.Port (convertPorts i.OpenPorts now) x with
      | none => exact absurd hfN ((mem_map_iff_find_ne_none _ _ _).mp hxk)
      | some q =>
        have hchar := mergePorts_find hndA hndN x
        rw [hfN] at hchar
        simp only [stepValue] at hchar
        refine ⟨hitValue portMod (mapFind PortInfo.Port a.OpenPorts x) q, ?_, ?_⟩
        · rw [hports]
          exact mapFind_mem PortInfo.Port hchar
        · exact mapFind_key PortInfo.Port hchar

/-- Witness for C2 on the asset with ports 22 and 80 and an incoming
list [22, 443]. -/
theorem c2_ports_merge_amended_witness :
    (((NewAsset c2Info1 0).OpenPorts.map PortInfo.Port).Nodup ∧
      c2Info3.OpenPorts.Nodup ∧ c2Info3.OpenPorts ≠ [] ∧
      sameIntSet ((NewAsset c2Info1 0).OpenPorts.map PortInfo.Port)
        c2Info3.OpenPorts = false) ∧
    (countChanges "ports_change" (Update (NewAsset c2Info1 0) c2Info3 5).Changes =
        countChanges "ports_change" (NewAsset c2Info1 0).Changes + 1 ∧
      (∀ p ∈ (NewAsset c2Info1 0).OpenPorts,
        ∃ q ∈ (Update (NewAsset c2Info1 0) c2Info3 5).OpenPorts,
          q.Port = p.Port ∧ q.FirstSeen = p.FirstSeen ∧
          q.LastSeen = (if p.Port ∈ c2Info3.OpenPorts then 5 else p.LastSeen)) ∧
      (∀ x ∈ c2Info3.OpenPorts,
        ∃ q ∈ (Update (NewAsset c2Info1 0) c2Info3 5).OpenPorts, q.Port = x)) :=
  ⟨⟨by decide, by decide, by decide, by decide⟩,
    (c2_ports_merge_amended (NewAsset c2Info1 0) c2Info3 5
      (by decide) (by decide) (by decide)).2 (by decide)⟩

/-! ### Claim C5 -/

theorem updPorts_cases (i : AssetInfo) (n : Int) (s : UpdState) :
    updPorts i n s = s ∨
    updPorts i n s =
      ({ s.1 with OpenPorts := mergePorts s.1.OpenPorts (convertPorts i.OpenPorts n) },
        s.2 ++ [{ Timestamp := n, ChangeType := "ports_change",
                  OldValue := ChangeValue.ports s.1.OpenPorts,
                  NewValue := ChangeValue.ports (convertPorts i.OpenPorts n),
                  Description := "开放端口发生变更" }]) := by
  unfold updPorts
  split
  · dsimp only
    split
    · left
      rfl
    · right
      rfl
  · left
    rfl

theorem updServices_cases (i : AssetInfo) (n : Int) (s : UpdState) :
    updServices i n s = s ∨
    updServices i n s =
      ({ s.1 with Services := mergeServices s.1.Services (convertServices i.Services n) },
        s.2) := by
  unfold updServices
  split
  · right
    rfl
  · left
    rfl

/-- The port list after `Update` is either untouched or the merge of
the old list with the converted incoming list, and likewise for the
service list. -/
theorem Update_shape (a : Asset) (i : AssetInfo) (n : Int) :
    ((Update a i n).OpenPorts = a.OpenPorts ∨
     (Update a i n).OpenPorts = mergePorts a.OpenPorts (convertPorts i.OpenPorts n)) ∧
    ((Update a i n).Services = a.Services ∨
     (Update a i n).Services =
       mergeServices a.Services (convertServices i.Services n)) := by
  unfold Update
  dsimp only
  obtain ⟨ip, δ1, h1, -⟩ := updIP_frame i n (a, [])
  rw [h1]
  obtain ⟨host, δ2, h2, -⟩ := updHostname_frame i n _
  rw [h2]
  rcases updPorts_cases i n _ with h3 | h3 <;> rw [h3] <;>
    (rcases updServices_cases i n _ with h4 | h4 <;> rw [h4]) <;>
    (obtain ⟨pm, h5⟩ := updProtocols_frame i _
     rw [h5]
     obtain ⟨os, δ6, h6, -⟩ := updOS_frame i n _
     rw [h6]
     obtain ⟨dt, δ7, h7, -⟩ := updDeviceType_frame i n _
     rw [h7]
     constructor <;> first | exact Or.inl rfl | exact Or.inr rfl)

theorem mergePorts_mono {existing : List PortInfo}
    (hnd : (existing.map PortInfo.Port).Nodup) (newPorts : List PortInfo) :
    existing.length ≤ (mergePorts existing newPorts).length ∧
    (∀ p ∈ existing, ∃ q ∈ mergePorts existing newPorts, q.Port = p.Port) ∧
    ((mergePorts existing newPorts).map PortInfo.Port).Nodup := by
  rw [mergePorts_phase1 hnd]
  refine ⟨length_le_foldl_mapStep PortInfo.Port portMod newPorts existing, ?_,
    nodup_foldl_mapStep PortInfo.Port portMod newPorts hnd⟩
  intro p hp
  have hfA : mapFind PortInfo.Port existing p.Port = some p :=
    mapFind_of_mem_nodup PortInfo.Port hnd hp
  have hs := isSome_mapFind_foldl_mapStep PortInfo.Port portMod portMod_key
    newPorts existing p.Port (by rw [hfA]; rfl)
  obtain ⟨q, hq⟩ := Option.isSome_iff_exists.mp hs
  exact ⟨q, mapFind_mem PortInfo.Port hq, mapFind_key PortInfo.Port hq⟩

theorem mergeServices_mono {existing : List ServiceInfo}
    (hnd : (existing.map ServiceInfo.Name).Nodup) (newServices : List ServiceInfo) :
    existing.length ≤ (mergeServices existing newServices).length ∧
    (∀ sv ∈ existing, ∃ w ∈ mergeServices existing newServices, w.Name = sv.Name) ∧
    ((mergeServices existing newServices).map ServiceInfo.Name).Nodup := by
  rw [mergeServices_phase1 hnd]
  refine ⟨length_le_foldl_mapStep ServiceInfo.Name serviceMod newServices existing, ?_,
    nodup_foldl_mapStep ServiceInfo.Name serviceMod newServices hnd⟩
  intro sv hsv
  have hfA : mapFind ServiceInfo.Name existing sv.Name = some sv :=
    mapFind_of_mem_nodup ServiceInfo.Name hnd hsv
  have hs := isSome_mapFind_foldl_mapStep ServiceInfo.Name serviceMod serviceMod_key
    newServices existing sv.Name (by rw [hfA]; rfl)
  obtain ⟨w, hw⟩ := Option.isSome_iff_exists.mp hs
  exact ⟨w, mapFind_mem ServiceInfo.Name hw, mapFind_key ServiceInfo.Name hw⟩

/-- Duplicate-freedom of the asset's port numbers and service names —
always true for assets built by the pipeline except when one creating
observation lists the same port twice. -/
def goodAsset (a : Asset) : Prop :=
  (a.OpenPorts.map PortInfo.Port).Nodup ∧ (a.Services.map ServiceInfo.Name).Nodup

theorem SetInactive_fields (a : Asset) (n : Int) :
    (SetInactive a n).OpenPorts = a.OpenPorts ∧
    (SetInactive a n).Services = a.Services := by
  unfold SetInactive
  split <;> exact ⟨rfl, rfl⟩

theorem applyAssetOp_monotone (a : Asset) (op : AssetOp) (hg : goodAsset a) :
    goodAsset (applyAssetOp a op) ∧
    a.OpenPorts.length ≤ (applyAssetOp a op).OpenPorts.length ∧
    a.Services.length ≤ (applyAssetOp a op).Services.length ∧
    (∃ δ, (applyAssetOp a op).Changes = a.Changes ++ δ) ∧
    (∀ p ∈ a.OpenPorts, ∃ q ∈ (applyAssetOp a op).OpenPorts, q.Port = p.Port) ∧
    (∀ sv ∈ a.Services, ∃ w ∈ (applyAssetOp a op).Services, w.Name = sv.Name) := by
  cases op with
  | update i n =>
    dsimp only [applyAssetOp]
    obtain ⟨hpo, hsv⟩ := Update_shape a i n
    refine ⟨⟨?_, ?_⟩, ?_, ?_, Update_Changes_append a i n, ?_, ?_⟩
    · rcases hpo with h | h
      · rw [h]
        exact hg.1
      · rw [h]
        exact (mergePorts_mono hg.1 _).2.2
    · rcases hsv with h | h
      · rw [h]
        exact hg.2
      · rw [h]
        exact (mergeServices_mono hg.2 _).2.2
    · rcases hpo with h | h
      · rw [h]
      · rw [h]
        exact (mergePorts_mono hg.1 _).1
    · rcases hsv with h | h
      · rw [h]
      · rw [h]
        exact (mergeServices_mono hg.2 _).1
    · rcases hpo with h | h
      · rw [h]
        exact fun p hp => ⟨p, hp, rfl⟩
      · rw [h]
        exact (mergePorts_mono hg.1 _).2.1
    · rcases hsv with h | h
      · rw [h]
        exact fun sv hsv' => ⟨sv, hsv', rfl⟩
      · rw [h]
        exact (mergeServices_mono hg.2 _).2.1
  | setInactive n =>
    dsimp only [applyAssetOp]
    obtain ⟨hpo, hsv⟩ := SetInactive_fields a n
    refine ⟨⟨hpo ▸ hg.1, hsv ▸ hg.2⟩, by rw [hpo], by rw [hsv],
      SetInactive_Changes_append a n,
      fun p hp => ⟨p, hpo ▸ hp, rfl⟩, fun sv hsv' => ⟨sv, hsv ▸ hsv', rfl⟩⟩

theorem applyAssetOps_monotone (ops : List AssetOp) (a : Asset) (hg : goodAsset a) :
    goodAsset (applyAssetOps a ops) ∧
    a.OpenPorts.length ≤ (applyAssetOps a ops).OpenPorts.length ∧
    a.Services.length ≤ (applyAssetOps a ops).Services.length ∧
    (∃ δ, (applyAssetOps a ops).Changes = a.Changes ++ δ) ∧
    (∀ p ∈ a.OpenPorts, ∃ q ∈ (applyAssetOps a ops).OpenPorts, q.Port = p.Port) ∧
    (∀ sv ∈ a.Services, ∃ w ∈ (applyAssetOps a ops).Services, w.Name = sv.Name) := by
  induction ops generalizing a with
  | nil =>
    exact ⟨hg, Nat.le_refl _, Nat.le_refl _, ⟨[], by simp [applyAssetOps]⟩,
      fun p hp => ⟨p, hp, rfl⟩, fun sv hsv => ⟨sv, hsv, rfl⟩⟩
  | cons op rest ih =>
    obtain ⟨hg1, hl1, hs1, ⟨δ1, hδ1⟩, hp1, hv1⟩ := applyAssetOp_monotone a op hg
    obtain ⟨hg2, hl2, hs2, ⟨δ2, hδ2⟩, hp2, hv2⟩ := ih (applyAssetOp a op) hg1
    refine ⟨hg2, Nat.le_trans hl1 hl2, Nat.le_trans hs1 hs2,
      ⟨δ1 ++ δ2, by rw [show applyAssetOps a (op :: rest) =
          applyAssetOps (applyAssetOp a op) rest from rfl, hδ2, hδ1,
        List.append_assoc]⟩, ?_, ?_⟩
    · intro p hp
      obtain ⟨q, hq, hqp⟩ := hp1 p hp
      obtain ⟨w, hw, hwq⟩ := hp2 q hq
      exact ⟨w, hw, hwq.trans hqp⟩
    · intro sv hsv
      obtain ⟨q, hq, hqp⟩ := hv1 sv hsv
      obtain ⟨w, hw, hwq⟩ := hv2 q hq
      exact ⟨w, hw, hwq.trans hqp⟩

/-- Observation with a duplicated port number, seeding the C5
counterexample asset. -/
def c5DupInfo : AssetInfo :=
  { IPAddress := "", MACAddress := "aa", Hostname := "", Vendor := "",
    DeviceType := "", OSGuess := "", Timestamp := 0, OpenPorts := [22, 22, 22],
    Services := [], Protocols := [] }

/-- C5 counterexample: an asset created from an observation listing
port 22 three times has three PortInfo entries; one further merge with
ports [22, 80] shrinks the list to two entries, so the entry count is
not non-decreasing. -/
theorem c5_counterexample :
    (NewAsset c5DupInfo 0).OpenPorts.length = 3 ∧
    (Update (NewAsset c5DupInfo 0) c2Info1 1).OpenPorts.length = 2 := by
  refine ⟨by decide, by decide⟩

/-- C5 amended: for every asset whose port numbers and service names
are pairwise distinct (as the pipeline maintains), any sequence of
Update and SetInactive operations leaves the PortInfo count, the
ServiceInfo count and the journal length non-decreasing (the journal
is only appended to), and removes no port number and no service
name. -/
theorem c5_monotonic_amended (a : Asset) (ops : List AssetOp)
    (hp : (a.OpenPorts.map PortInfo.Port).Nodup)
    (hs : (a.Services.map ServiceInfo.Name).Nodup) :
    a.OpenPorts.length ≤ (applyAssetOps a ops).OpenPorts.length ∧
    a.Services.length ≤ (applyAssetOps a ops).Services.length ∧
    (∃ δ, (applyAssetOps a ops).Changes = a.Changes ++ δ) ∧
    (∀ p ∈ a.OpenPorts, ∃ q ∈ (applyAssetOps a ops).OpenPorts, q.Port = p.Port) ∧
    (∀ sv ∈ a.Services, ∃ w ∈ (applyAssetOps a ops).Services, w.Name = sv.Name) :=
  (applyAssetOps_monotone ops a ⟨hp, hs⟩).2

/-- Witness for C5 on the two-port asset with one merge and one
deactivation. -/
theorem c5_monotonic_amended_witness :
    (((NewAsset c2Info1 0).OpenPorts.map PortInfo.Port).Nodup ∧
      ((NewAsset c2Info1 0).Services.map ServiceInfo.Name).Nodup) ∧
    ((NewAsset c2Info1 0).OpenPorts.length ≤
        (applyAssetOps (NewAsset c2Info1 0)
          [AssetOp.update c2Info3 1, AssetOp.setInactive 2]).OpenPorts.length ∧
      (NewAsset c2Info1 0).Services.length ≤
        (applyAssetOps (NewAsset c2Info1 0)
          [AssetOp.update c2Info3 1, AssetOp.setInactive 2]).Services.length ∧
      (∃ δ, (applyAssetOps (NewAsset c2Info1 0)
          [AssetOp.update c2Info3 1, AssetOp.setInactive 2]).Changes =
        (NewAsset c2Info1 0).Changes ++ δ) ∧
      (∀ p ∈ (NewAsset c2Info1 0).OpenPorts,
        ∃ q ∈ (applyAssetOps (NewAsset c2Info1 0)
          [AssetOp.update c2Info3 1, AssetOp.setInactive 2]).OpenPorts,
          q.Port = p.Port) ∧
      (∀ sv ∈ (NewAsset c2Info1 0).Services,
        ∃ w ∈ (applyAssetOps (NewAsset c2Info1 0)
          [AssetOp.update c2Info3 1, AssetOp.setInactive 2]).Services,
          w.Name = sv.Name)) :=
  ⟨⟨by decide, by decide⟩,
    c5_monotonic_amended (NewAsset c2Info1 0)
      [AssetOp.update c2Info3 1, AssetOp.setInactive 2] (by decide) (by decide)⟩

end Assets
